import Mathlib

/-!
# Token lifecycle of `digital-bank`: access tokens and the JWKS verifier

A shallow embedding of

* `auth-service/pkg/jwt/jwt.go`   (`hmacService`, HS256 access tokens),
* `libs/jwt/service.go`           (`rsaService`, RS256 access tokens),
* `libs/jwt/verifier.go`          (`remoteVerifier`, JWKS cache and `Verify`),
* `libs/common/errors.go`         (`CodedError`, `Wrap`, `IsCode`),
* `auth-service/internal/adapters/http/errors_http.go`  (`mapErrToHTTP`),
* `services/auth/internal/adapters/http/middleware.go`  (`JWTMiddleware`),
* `services/auth/internal/usecases/auth_usecase.go`     (`Login`),

together with a model of the two JWT libraries these files call
(`github.com/golang-jwt/jwt/v5` and `github.com/lestrrat-go/jwx`), restricted
to what the files use: compact parsing, algorithm and key selection,
signature verification, the time checks, and the issuer/audience options.
The refresh-token ledger, of which the repository only declares the
interface, follows the specification.

Conventions.

* Instants and durations are integers counting nanoseconds (Go `time.Time`
  relative to the Unix epoch, `time.Duration`).  The clock is an explicit
  argument wherever the Go code calls `time.Now()`.
* A token string is represented by what its compact serialisation decodes to
  (`TokenStr`): either nothing (`malformed`) or a header, a payload and a
  signature.  Base64url and JSON are taken to be inverse to each other on
  well-formed input.
* The opaque refresh tokens are strings of characters; the random source is
  an argument, the base64url encoding and SHA-256 are written out.  Limits of
  memory allocation are not modelled.
* The collaborators of `Login` are arguments, and `Login` records the calls it
  makes on them.
* Signatures are symbolic: a signature value records the algorithm, the key and
  the signing input it was computed from, so that a signature verifies exactly
  when it was produced with the matching key over the same header and payload.
-/

namespace DigitalBank

deriving instance DecidableEq for Except

/-! ## Time -/

/-- Go `time.Second`. -/
def Second : Int := 1000000000

/-- Go `t.Unix()`: the whole seconds since the epoch, rounded down. -/
def unix (t : Int) : Int := t / 1000000000

/-- The instant of a whole number of seconds (`time.Unix(s, 0)`). -/
def ofUnix (s : Int) : Int := s * 1000000000

/-! ## JSON values of private claims -/

/-- A private claim as `encoding/json` hands it to the program when decoding
into `any`: a JSON number arrives as a `float64`, of which the program only
ever reads the integer part (through `uint64(f)`), so a number is represented
by that integer part. -/
inductive JVal where
  | null
  | bool (b : Bool)
  | num (ipart : Int)
  | str (s : String)
  | other
  deriving DecidableEq, Repr

/-- The `float64` nearest to the integer `n < 2 ^ 64` (53 significant bits,
ties to even): what decoding the JSON numeral written for a `uint64` yields.
`sh` is the number of low bits that do not fit the significand. -/
def float64OfNat (n : Nat) : Nat :=
  if n < 2 ^ 53 then n
  else
    match (List.range 12).find? (fun k => decide (n < 2 ^ (53 + k))) with
    | none => n
    | some sh =>
      let q := n / 2 ^ sh
      let r := n % 2 ^ sh
      let half := 2 ^ (sh - 1)
      let q' := if r > half ∨ (r = half ∧ q % 2 = 1) then q + 1 else q
      q' * 2 ^ sh

/-- Go `uint64(f)` for a `float64` with integer part `ipart`.  Outside the range
of `uint64` Go leaves the result to the implementation; the model returns 0
there, and no statement below rests on that value. -/
def uint64OfFloat (ipart : Int) : Nat :=
  if 0 ≤ ipart ∧ ipart < 2 ^ 64 then ipart.toNat else 0

/-! ## Tokens -/

/-- The JOSE header of a compact token. -/
structure Header where
  alg : String
  kid : Option String
  deriving DecidableEq, Repr

/-- The payload of an access token as a verifier decodes it.  `exp`, `nbf` and
`iat` are in whole seconds; `aud` is the list of audiences (a single string
counts as a one-element list); `uid`, `email` and `role` are the private
claims, absent when `none`. -/
structure Payload where
  iss : Option String
  aud : List String
  exp : Option Int
  nbf : Option Int
  iat : Option Int
  uid : Option JVal
  email : Option JVal
  role : Option JVal
  deriving DecidableEq, Repr

/-- An RSA public key, identified by the key pair it belongs to. -/
structure RSAPublicKey where
  id : Nat
  deriving DecidableEq, Repr

/-- An RSA private key, identified by the key pair it belongs to. -/
structure RSAPrivateKey where
  id : Nat
  deriving DecidableEq, Repr

/-- Go `priv.Public()`: the public half of the pair. -/
def RSAPrivateKey.Public (k : RSAPrivateKey) : RSAPublicKey := { id := k.id }

/-- Symbolic signatures over the signing input `header.payload`. -/
inductive Sig where
  | hmac (alg : String) (key : List Nat) (h : Header) (p : Payload)
  | rsa (alg : String) (keyPair : Nat) (h : Header) (p : Payload)
  | raw (bytes : List Nat)
  deriving DecidableEq, Repr

/-- The three decoded segments of a compact token. -/
structure Token where
  header : Header
  payload : Payload
  sig : Sig
  deriving DecidableEq, Repr

/-- A token string: either it does not decode to three segments with a JSON
header and payload (`malformed`), or it does (`compact`). -/
inductive TokenStr where
  | malformed (raw : String)
  | compact (t : Token)
  deriving DecidableEq, Repr

/-- Go type `Claims`, returned to the application after validation (both packages
declare the same three fields). -/
structure Claims where
  UserID : Nat
  Email : String
  Role : String
  deriving DecidableEq, Repr

/-- Go type `entities.User` / `UserInfo`: the user a token is issued for.  `ID` is a
`uint64`. -/
structure User where
  ID : Nat
  Email : String
  Role : String
  deriving DecidableEq, Repr

/-! ## Model of `github.com/golang-jwt/jwt/v5` -/

namespace golangjwt

/-- The sentinel errors a failed `jwt.Parse` can wrap. -/
inductive Sentinel where
  | ErrTokenMalformed
  | ErrTokenUnverifiable
  | ErrTokenSignatureInvalid
  | ErrTokenInvalidClaims
  | ErrTokenExpired
  | ErrTokenNotValidYet
  deriving DecidableEq, Repr

/-- An error returned by `jwt.Parse`: the sentinels it wraps (the validator
joins the errors of all the checks that failed). -/
abbrev Error := List Sentinel

/-- Go `errors.Is(err, target)` on such an error. -/
def Is (err : Error) (target : Sentinel) : Bool := err.contains target

/-- The registered signing methods, by Go type: `*SigningMethodHMAC` for the
three HMAC algorithms, any other type for the rest. -/
inductive SigningMethod where
  | HMAC (alg : String)
  | nonHMAC (alg : String)
  deriving DecidableEq, Repr

/-- Go function `jwt.GetSigningMethod`: the method registered under the
header's `alg`. -/
def GetSigningMethod (alg : String) : Option SigningMethod :=
  if alg ∈ ["HS256", "HS384", "HS512"] then some (.HMAC alg)
  else if alg ∈ ["RS256", "RS384", "RS512", "PS256", "PS384", "PS512",
      "ES256", "ES384", "ES512", "EdDSA", "none"] then some (.nonHMAC alg)
  else none

/-- Go function `Method.Verify(signingInput, sig, key)` for a key of type
`[]byte`: an HMAC method recomputes the MAC with its own hash; every other
method rejects a `[]byte` key. -/
def SigningMethod.Verify (m : SigningMethod) (t : Token) (key : List Nat) : Bool :=
  match m with
  | .HMAC alg => decide (t.sig = Sig.hmac alg key t.header t.payload)
  | .nonHMAC _ => false

/-- The default validator with a leeway: `exp` must lie after `now - leeway`
(strictly), `nbf` not after `now + leeway`; `iat` is not checked unless asked
for.  A numeric date of `0` is read as no date at all (the claims map hands
back a nil date for it), so such an `exp` or `nbf` is not checked.  All
failures are collected. -/
def validate (leeway : Int) (now : Int) (p : Payload) : List Sentinel :=
  (match p.exp with
    | some e =>
      if e = 0 then [] else if now < ofUnix e + leeway then [] else [.ErrTokenExpired]
    | none => []) ++
  (match p.nbf with
    | some n =>
      if n = 0 then [] else if now < ofUnix n - leeway then [.ErrTokenNotValidYet] else []
    | none => [])

/-- A parsed `*jwt.Token`. -/
structure Parsed where
  Method : SigningMethod
  Claims : Payload
  Valid : Bool
  deriving DecidableEq, Repr

/-- Go function `jwt.Parse(tokenStr, keyFunc, jwt.WithLeeway(leeway))` with
keys of type `[]byte`: split and decode, look up the method of the header's
`alg`, ask the key function, verify the signature, then validate the claims
(in this order, so that a token with a bad signature never reports an expiry). -/
def Parse (keyFunc : SigningMethod → Except Unit (List Nat)) (leeway : Int)
    (now : Int) : TokenStr → Except Error Parsed
  | .malformed _ => .error [.ErrTokenMalformed]
  | .compact t =>
    match GetSigningMethod t.header.alg with
    | none => .error [.ErrTokenUnverifiable]
    | some m =>
      match keyFunc m with
      | .error _ => .error [.ErrTokenUnverifiable]
      | .ok key =>
        if !m.Verify t key then .error [.ErrTokenSignatureInvalid]
        else
          match validate leeway now t.payload with
          | [] => .ok { Method := m, Claims := t.payload, Valid := true }
          | errs => .error (.ErrTokenInvalidClaims :: errs)

end golangjwt

/-! ## `auth-service/pkg/jwt/jwt.go` -/

/-- The errors of package `auth-service/pkg/jwt`. -/
inductive JwtError where
  | ErrInvalidToken
  | ErrExpiredToken
  deriving DecidableEq, Repr

/-- Go type `HMACConfig`. -/
structure HMACConfig where
  AccessSecret : List Nat
  AccessTTL : Int
  RefreshTTL : Int
  Issuer : String
  Audience : String
  deriving DecidableEq, Repr

/-- Go type `hmacService`. -/
structure hmacService where
  cfg : HMACConfig
  deriving DecidableEq, Repr

/-- Go function `NewHMACService`. -/
def NewHMACService (cfg : HMACConfig) : hmacService := { cfg := cfg }

/-- Go function `hmacService.GenerateAccessToken` at clock reading `now`: the
claims map with `iss`, `aud`, `exp`, `iat`, `uid`, `email`, `role`, signed
with HS256 under `AccessSecret`.  The `uid` is written as a JSON numeral and is seen by
any reader as the nearest `float64`. -/
def hmacService.GenerateAccessToken (s : hmacService) (now : Int) (u : User) :
    Except JwtError TokenStr :=
  let header : Header := { alg := "HS256", kid := none }
  let claims : Payload :=
    { iss := some s.cfg.Issuer
      aud := [s.cfg.Audience]
      exp := some (unix (now + s.cfg.AccessTTL))
      nbf := none
      iat := some (unix now)
      uid := some (.num (float64OfNat u.ID))
      email := some (.str u.Email)
      role := some (.str u.Role) }
  .ok (.compact { header := header, payload := claims,
                  sig := Sig.hmac "HS256" s.cfg.AccessSecret header claims })

/-- The key function `ValidateAccessToken` hands to `jwt.Parse`: the secret
for a method of type `*jwt.SigningMethodHMAC`, an error for any other. -/
def hmacService.keyFunc (s : hmacService) : golangjwt.SigningMethod → Except Unit (List Nat)
  | .HMAC _ => .ok s.cfg.AccessSecret
  | .nonHMAC _ => .error ()

/-- Go function `hmacService.ValidateAccessToken` at clock reading `now`. -/
def hmacService.ValidateAccessToken (s : hmacService) (now : Int) (tokenStr : TokenStr) :
    Except JwtError Claims :=
  match golangjwt.Parse s.keyFunc (5 * Second) now tokenStr with
  | .error err =>
    if golangjwt.Is err .ErrTokenExpired then .error .ErrExpiredToken
    else .error .ErrInvalidToken
  | .ok token =>
    if !token.Valid then .error .ErrInvalidToken
    else
      let uid : Nat := match token.Claims.uid with
        | some (.num f) => uint64OfFloat f
        | _ => 0
      let email : String := match token.Claims.email with
        | some (.str e) => e
        | _ => ""
      let role : String := match token.Claims.role with
        | some (.str r) => r
        | _ => ""
      .ok { UserID := uid, Email := email, Role := role }

/-! ## Model of `github.com/lestrrat-go/jwx` (`jwk`, `jwt`) -/

namespace jwx

/-- A `jwk.Key` built from an RSA public key, with the fields the program
sets: `kid`, `alg` and `use` (here `usage`). -/
structure Key where
  kid : Option String
  alg : Option String
  usage : Option String
  pub : RSAPublicKey
  deriving DecidableEq, Repr

/-- A `jwk.Set`: the keys in order. -/
abbrev Set := List Key

/-- Go function `set.LookupKeyID(kid)`: the first key of the set carrying that
key id. -/
def LookupKeyID (set : Set) (kid : String) : Option Key :=
  set.find? (fun k => decide (k.kid = some kid))

/-- The ways `jwt.Parse` fails.  A failed key lookup remembers the key id the
header named (`none` when the header names no key id), since the library's
message quotes it. -/
inductive ParseError where
  | malformed
  | keyLookup (kid : Option String)
  | signature
  | issuedAt
  | expired
  | notYetValid
  | issuer
  | audience
  deriving DecidableEq, Repr

/-- The double quote character. -/
def quote : String := String.singleton (Char.ofNat 34)

/-- Go `err.Error()`.  The texts stand for the library's messages; what the
program reads from them is only whether they contain `no key` or `kid`.  The
message for a key id the set does not hold quotes that key id and has neither
text of its own, so it contains one of them exactly when the key id does; the
message for a header without key id names the missing `kid` field; the others
contain neither.  (The escaping of unprintable characters in the quoted key id
is not modelled.) -/
def ParseError.Error : ParseError → String
  | .malformed => "failed to parse token: invalid compact serialization"
  | .keyLookup (some kid) =>
    "failed to find key with key ID " ++ quote ++ kid ++ quote ++ " in key set"
  | .keyLookup none =>
    "failed to find matching key: no key ID (" ++ quote ++ "kid" ++ quote
      ++ ") specified in token"
  | .signature => "could not verify message using any of the signatures"
  | .issuedAt => "iat not satisfied"
  | .expired => "exp not satisfied"
  | .notYetValid => "nbf not satisfied"
  | .issuer => "iss not satisfied: values do not match"
  | .audience => "aud not satisfied"

/-- Go `errors.Is(err, jwt.ErrTokenExpired)`. -/
def IsTokenExpired (err : ParseError) : Bool := decide (err = .expired)

/-- The options the program passes to `jwt.Parse`: always `WithKeySet(set)` and
`WithValidate(true)`, and `WithIssuer` / `WithAudience` when present. -/
structure Options where
  keySet : Set
  issuer : Option String
  audience : Option String
  deriving DecidableEq, Repr

/-- The signature algorithms an RSA key verifies. -/
def rsaAlgs : List String := ["RS256", "RS384", "RS512", "PS256", "PS384", "PS512"]

/-- Signature verification against a key set (`jwt.WithKeySet`): the header
must name a key id, the set must hold a key with it, that key must carry an
algorithm, and the signature must be the one the key's pair produces under the
key's algorithm.  The algorithm the header names is part of the signed text but
is not compared with the key's. -/
def verify (set : Set) (t : Token) : Except ParseError Unit :=
  match t.header.kid with
  | none => .error (.keyLookup none)
  | some kid =>
    match LookupKeyID set kid with
    | none => .error (.keyLookup (some kid))
    | some k =>
      match k.alg with
      | none => .error .signature
      | some alg =>
        if alg ∈ rsaAlgs ∧ t.sig = Sig.rsa alg k.pub.id t.header t.payload then .ok ()
        else .error .signature

/-- Go function `jwt.Validate` with no acceptable skew: the clock is truncated to the
second; `iat` must not lie in the future, `exp` must lie strictly in the
future, `nbf` must not lie in the future; then the issuer and audience the
options ask for.  The first failure is reported. -/
def validate (o : Options) (now : Int) (p : Payload) : Except ParseError Unit :=
  let nowS := unix now
  if (match p.iat with | some i => decide (nowS < i) | none => false) then .error .issuedAt
  else if (match p.exp with | some e => decide (e ≤ nowS) | none => false) then .error .expired
  else if (match p.nbf with | some n => decide (nowS < n) | none => false) then .error .notYetValid
  else if (match o.issuer with | some want => decide (p.iss ≠ some want) | none => false) then
    .error .issuer
  else if (match o.audience with | some want => decide (want ∉ p.aud) | none => false) then
    .error .audience
  else .ok ()

/-- Go function `jwt.Parse([]byte(tokenStr), opts...)`: decode, verify the signature
against the key set, validate.  The result stands for the `jwt.Token`: its
payload. -/
def Parse (o : Options) (now : Int) : TokenStr → Except ParseError Payload
  | .malformed _ => .error .malformed
  | .compact t =>
    match verify o.keySet t with
    | .error e => .error e
    | .ok () =>
      match validate o now t.payload with
      | .error e => .error e
      | .ok () => .ok t.payload

end jwx

/-- Go `strings.Contains(s, substr)`. -/
def stringsContains (s substr : String) : Bool :=
  s.toList.tails.any (fun t => substr.toList.isPrefixOf t)

/-! ## `libs/jwt/service.go` -/

/-- Go type `Config` of the RSA service. -/
structure Config where
  Issuer : String
  Audience : String
  AccessTTL : Int
  RefreshTTL : Int
  KeyID : String
  deriving DecidableEq, Repr

/-- Go type `rsaService`. -/
structure rsaService where
  cfg : Config
  priv : RSAPrivateKey
  pub : RSAPublicKey
  jwkKey : jwx.Key
  deriving DecidableEq, Repr

/-- Go function `NewRSAService`; a nil key pointer is `none`. -/
def NewRSAService (cfg : Config) (priv : Option RSAPrivateKey) (pub : Option RSAPublicKey) :
    Except String rsaService :=
  match priv, pub with
  | some priv, some pub =>
    if cfg.KeyID = "" then .error "cfg.KeyID required"
    else
      .ok { cfg := cfg, priv := priv, pub := pub,
            jwkKey := { kid := some cfg.KeyID, alg := some "RS256", usage := some "sig",
                        pub := pub } }
  | _, _ => .error "private/public key required"

/-- Go function `rsaService.GenerateAccessToken` at clock reading `now`: the builder's
claims, signed with RS256 by the private key, the header naming `cfg.KeyID`. -/
def rsaService.GenerateAccessToken (s : rsaService) (now : Int) (u : User) :
    Except String TokenStr :=
  let tok : Payload :=
    { iss := some s.cfg.Issuer
      aud := [s.cfg.Audience]
      exp := some (unix (now + s.cfg.AccessTTL))
      nbf := none
      iat := some (unix now)
      uid := some (.num (float64OfNat u.ID))
      email := some (.str u.Email)
      role := some (.str u.Role) }
  let header : Header := { alg := "RS256", kid := some s.cfg.KeyID }
  .ok (.compact { header := header, payload := tok,
                  sig := Sig.rsa "RS256" s.priv.id header tok })

/-- Go function `rsaService.ValidateAccessToken` at clock reading `now`. -/
def rsaService.ValidateAccessToken (s : rsaService) (now : Int) (tokenStr : TokenStr) :
    Except String Claims :=
  let set : jwx.Set := [s.jwkKey]
  match jwx.Parse { keySet := set, issuer := none, audience := none } now tokenStr with
  | .error err =>
    if jwx.IsTokenExpired err then .error "token expired"
    else .error "invalid token"
  | .ok tok =>
    let uid : Nat := match tok.uid with
      | some (.num id) => uint64OfFloat id
      | _ => 0
    let email : String := match tok.email with
      | some (.str sEmail) => sEmail
      | _ => ""
    let role : String := match tok.role with
      | some (.str sRole) => sRole
      | _ => ""
    .ok { UserID := uid, Email := email, Role := role }

/-! ## `libs/jwt/verifier.go` -/

/-- The errors of the verifiers. -/
inductive VerifyError where
  | ErrUnauthorized
  | ErrExpired
  deriving DecidableEq, Repr

/-- Go function `extractClaimsFromToken`.  A decoded token holds its numbers as `float64`,
so of the cases of the type switch on `uid` only that one is met. -/
def extractClaimsFromToken (tok : Payload) : Except VerifyError Claims :=
  let uid : Nat := match tok.uid with
    | some (.num id) => uint64OfFloat id
    | _ => 0
  let email : String := match tok.email with
    | some (.str s) => s
    | _ => ""
  let role : String := match tok.role with
    | some (.str s) => s
    | _ => ""
  .ok { UserID := uid, Email := email, Role := role }

/-- Go type `remoteVerifier`: its configuration and the cached key set (the field
guarded by `mu`).  `NewRemoteVerifier` only returns a verifier after a
successful fetch, so the key set is never a nil interface. -/
structure remoteVerifier where
  jwksURL : String
  issuer : String
  audience : String
  refreshInterval : Int
  keySet : jwx.Set
  deriving DecidableEq, Repr

/-- The outcome of one `jwk.Fetch(ctx, r.jwksURL)`: the network's answer. -/
abbrev FetchResult := Except String jwx.Set

/-- Go function `remoteVerifier.fetchOnce`, given the outcome of its fetch: the error it
returns (`none` for nil) and the verifier afterwards. -/
def remoteVerifier.fetchOnce (r : remoteVerifier) (fetched : FetchResult) :
    Option String × remoteVerifier :=
  match fetched with
  | .error err => (some err, r)
  | .ok set => (none, { r with keySet := set })

/-- Go function `remoteVerifier.getSet`. -/
def remoteVerifier.getSet (r : remoteVerifier) : jwx.Set := r.keySet

/-- Go function `NewRemoteVerifier`, given the outcome of the initial fetch. -/
def NewRemoteVerifier (jwksURL issuer audience : String) (refreshInterval : Int)
    (fetched : FetchResult) : Except String remoteVerifier :=
  let refreshInterval := if refreshInterval ≤ 0 then 5 * 60 * Second else refreshInterval
  let rv : remoteVerifier :=
    { jwksURL := jwksURL, issuer := issuer, audience := audience,
      refreshInterval := refreshInterval, keySet := [] }
  match rv.fetchOnce fetched with
  | (some err, _) => .error err
  | (none, rv) => .ok rv

/-- What the `select` of `refreshLoop` receives: a tick of the ticker, together
with the outcome of the fetch that tick triggers, or the closing of `quit`. -/
inductive LoopEvent where
  | tick (fetched : FetchResult)
  | quit
  deriving DecidableEq, Repr

/-- One iteration of the loop of `refreshLoop`: the verifier afterwards and
whether the loop goes on. -/
def remoteVerifier.refreshStep (r : remoteVerifier) : LoopEvent → remoteVerifier × Bool
  | .tick fetched => ((r.fetchOnce fetched).2, true)
  | .quit => (r, false)

/-- Go function `remoteVerifier.refreshLoop` run over a sequence of events. -/
def remoteVerifier.refreshLoop (r : remoteVerifier) : List LoopEvent → remoteVerifier
  | [] => r
  | ev :: rest =>
    match r.refreshStep ev with
    | (r', true) => r'.refreshLoop rest
    | (r', false) => r'

/-- The options `Verify` builds for its first parse (verifier.go, lines
133-139): the key set and validation, the issuer when one is configured, the
audience when one is configured. -/
def remoteVerifier.opts (r : remoteVerifier) (set : jwx.Set) : jwx.Options :=
  { keySet := set
    issuer := if r.issuer ≠ "" then some r.issuer else none
    audience := if r.audience ≠ "" then some r.audience else none }

/-- What one call of `Verify` yields: its result, the verifier afterwards, and
the number of key-set fetches it performed. -/
structure VerifyOutcome where
  result : Except VerifyError Claims
  after : remoteVerifier
  fetches : Nat
  deriving DecidableEq, Repr

/-- Go function `remoteVerifier.Verify`.  `now` is the clock at the first parse, `later`
the clock at the second parse, and `fetched` the outcome of the refetch, should
the call perform one. -/
def remoteVerifier.Verify (r : remoteVerifier) (fetched : FetchResult) (now later : Int)
    (tokenStr : TokenStr) : VerifyOutcome :=
  let set := r.getSet
  if set.length = 0 then { result := .error .ErrUnauthorized, after := r, fetches := 0 }
  else
    let opts := r.opts set
    match jwx.Parse opts now tokenStr with
    | .error err =>
      if jwx.IsTokenExpired err then
        { result := .error .ErrExpired, after := r, fetches := 0 }
      else if stringsContains err.Error "no key" || stringsContains err.Error "kid" then
        let r' := (r.fetchOnce fetched).2
        let set := r'.getSet
        match jwx.Parse { keySet := set, issuer := none, audience := none } later tokenStr with
        | .ok tok2 => { result := extractClaimsFromToken tok2, after := r', fetches := 1 }
        | .error _ => { result := .error .ErrUnauthorized, after := r', fetches := 1 }
      else { result := .error .ErrUnauthorized, after := r, fetches := 0 }
    | .ok tok => { result := extractClaimsFromToken tok, after := r, fetches := 0 }

/-- Go function `rsaService.JWKS`: a fresh set holding the service's public
key entry. -/
def rsaService.JWKS (s : rsaService) : Except String jwx.Set := .ok [s.jwkKey]

/-! ## `libs/common/errors.go` -/

namespace errs

/-- Go type `Code`: a machine-readable code, a string. -/
abbrev Code := String

/-- Constant `CodeInternal`. -/
def CodeInternal : Code := "internal_error"

/-- Constant `CodeNotFound`. -/
def CodeNotFound : Code := "not_found"

/-- Constant `CodeConflict`. -/
def CodeConflict : Code := "conflict"

/-- Constant `CodeBadRequest`. -/
def CodeBadRequest : Code := "bad_request"

/-- Constant `CodeUnauth`. -/
def CodeUnauth : Code := "unauthenticated"

/-- One error of an `Unwrap` chain: a `*CodedError` with its code and message,
or an error of any other type with its text. -/
inductive Node where
  | plain (text : String)
  | coded (CodeVal : Code) (Msg : String)
  deriving DecidableEq, Repr

/-- A Go `error` value: its `Unwrap` chain, the outermost error first.  The
empty chain is `nil`. -/
abbrev Error := List Node

/-- Go type `CodedError`: the code, the message and the wrapped error. -/
structure CodedError where
  CodeVal : Code
  Msg : String
  Err : Error
  deriving DecidableEq, Repr

/-- A `*CodedError` seen as an `error`: itself, followed by what it wraps. -/
def CodedError.toError (e : CodedError) : Error := .coded e.CodeVal e.Msg :: e.Err

/-- Go function `CodedError.Unwrap`. -/
def CodedError.Unwrap (e : CodedError) : Error := e.Err

/-- Go function `CodedError.Code`. -/
def CodedError.Code (e : CodedError) : Code := e.CodeVal

/-- Go `errors.As(err, &ce)` for a target of type `*CodedError`: the first
coded error of the chain, if there is one. -/
def As : Error → Option CodedError
  | [] => none
  | .coded c m :: rest => some { CodeVal := c, Msg := m, Err := rest }
  | .plain _ :: rest => As rest

/-- Go function `New`. -/
def New (code : Code) (msg : String) : CodedError := { CodeVal := code, Msg := msg, Err := [] }

/-- Go function `Wrap`. -/
def Wrap (err : Error) (code : Code) (msg : String) : CodedError :=
  if err = [] then New code msg
  else
    match As err with
    | some ce =>
      if ce.CodeVal = code then { CodeVal := code, Msg := msg, Err := err }
      else { CodeVal := code, Msg := msg, Err := err }
    | none => { CodeVal := code, Msg := msg, Err := err }

/-- Go function `IsCode`. -/
def IsCode (err : Error) (code : Code) : Bool :=
  match As err with
  | some ce => decide (ce.CodeVal = code)
  | none => false

/-- Go function `AsCoded`. -/
def AsCoded (err : Error) : Option CodedError := As err

end errs

/-! ## `auth-service/internal/adapters/http/errors_http.go` -/

/-- Go type `APIErrorResp`. -/
structure APIErrorResp where
  Code : String
  Message : String
  deriving DecidableEq, Repr

/-- Go function `mapErrToHTTP`: the HTTP status and the response body. -/
def mapErrToHTTP (err : errs.Error) : Nat × APIErrorResp :=
  match errs.As err with
  | some ce =>
    if ce.Code = errs.CodeBadRequest then
      (400, { Code := ce.Code, Message := "invalid request" })
    else if ce.Code = errs.CodeNotFound then
      (404, { Code := ce.Code, Message := "resource not found" })
    else if ce.Code = errs.CodeConflict then
      (409, { Code := ce.Code, Message := "conflict" })
    else if ce.Code = errs.CodeUnauth then
      (401, { Code := ce.Code, Message := "unauthenticated" })
    else (500, { Code := errs.CodeInternal, Message := "internal server error" })
  | none => (500, { Code := errs.CodeInternal, Message := "internal server error" })

/-! ## `services/auth/internal/adapters/http/middleware.go` -/

/-- Go `strings.HasPrefix(s, prefix)`. -/
def stringsHasPrefix (s pre : String) : Bool := pre.toList.isPrefixOf s.toList

/-- Go `strings.TrimPrefix(s, prefix)`. -/
def stringsTrimPrefix (s pre : String) : String :=
  if stringsHasPrefix s pre then String.mk (s.toList.drop pre.length) else s

/-- Constant `CtxUserKey`. -/
def CtxUserKey : String := "user_claims"

/-- A value stored in the `Locals` of a request: a `*jwt.Claims`, or a value of
another type. -/
inductive Local where
  | claims (c : Claims)
  | other (repr : String)
  deriving DecidableEq, Repr

/-- The part of a `*fiber.Ctx` the middleware touches: the `Authorization`
header as `c.Get` returns it (empty when the header is absent) and the
`Locals` of the request. -/
structure Ctx where
  Authorization : String
  locals : List (String × Local)
  deriving DecidableEq, Repr

/-- Go `c.Locals(key, value)`: store a value under the key. -/
def Ctx.setLocal (c : Ctx) (key : String) (v : Local) : Ctx :=
  { c with locals := (key, v) :: c.locals.filter (fun kv => kv.1 ≠ key) }

/-- Go `c.Locals(key)`: the value stored under the key, nil when none is. -/
def Ctx.getLocal (c : Ctx) (key : String) : Option Local :=
  (c.locals.find? (fun kv => kv.1 = key)).map (fun kv => kv.2)

/-- What a handler did with the request: it called `c.Next()`, with the
context as it then was, or it answered with a status and an `error` text. -/
inductive Handled where
  | next (c : Ctx)
  | status (code : Nat) (error : String)
  deriving DecidableEq, Repr

/-- The handler's effect, together with the token strings it handed to
`ValidateAccessToken`, in order. -/
structure MiddlewareOutcome where
  handled : Handled
  validated : List String
  deriving DecidableEq, Repr

/-- Go function `JWTMiddleware`, for a service whose `ValidateAccessToken` is
the given function. -/
def JWTMiddleware (ValidateAccessToken : String → Except String Claims) (c : Ctx) :
    MiddlewareOutcome :=
  let auth := c.Authorization
  if auth = "" then { handled := .next c, validated := [] }
  else if !stringsHasPrefix auth "Bearer " then
    { handled := .status 401 "invalid token", validated := [] }
  else
    let token := stringsTrimPrefix auth "Bearer "
    match ValidateAccessToken token with
    | .error _ => { handled := .status 401 "invalid or expired token", validated := [token] }
    | .ok claims =>
      { handled := .next (c.setLocal CtxUserKey (.claims claims)), validated := [token] }

/-- Go function `GetClaims`: the claims when the second result is true. -/
def GetClaims (c : Ctx) : Option Claims :=
  match c.getLocal CtxUserKey with
  | none => none
  | some (.claims claims) => some claims
  | some (.other _) => none

/-! ## Opaque refresh tokens (`jwt.go`, lines 118-146; `service.go`, lines 134-166)

Bytes are natural numbers below 256.  The standard library the code calls is
modelled as follows: `base64.RawURLEncoding` and `sha256.Sum256` (FIPS 180-4)
are written out; `crypto/rand.Read` is an argument (`RandRead`).  The functions
that hash take the digest function as an argument (`Sum256`), for which
`sha256.Sum256` is the one the program uses. -/

namespace base64

/-- The URL-safe alphabet of `base64.RawURLEncoding`. -/
def alphabet : List Char :=
  "ABCDEFGHIJKLMNOPQRSTUVWXYZabcdefghijklmnopqrstuvwxyz0123456789-_".toList

/-- The character of a 6-bit value. -/
def encodeSextet (v : Nat) : Char := alphabet.getD v 'A'

/-- The 6-bit value of a character of the alphabet. -/
def decodeSextet (c : Char) : Option Nat :=
  if alphabet.indexOf c < 64 then some (alphabet.indexOf c) else none

/-- Encoding without padding: 3 bytes give 4 characters, a rest of 2 bytes
gives 3 characters, a rest of 1 byte gives 2. -/
def encode : List Nat → List Char
  | b0 :: b1 :: b2 :: rest =>
    encodeSextet (b0 / 4) :: encodeSextet (b0 % 4 * 16 + b1 / 16)
      :: encodeSextet (b1 % 16 * 4 + b2 / 64) :: encodeSextet (b2 % 64) :: encode rest
  | [b0, b1] =>
    [encodeSextet (b0 / 4), encodeSextet (b0 % 4 * 16 + b1 / 16), encodeSextet (b1 % 16 * 4)]
  | [b0] => [encodeSextet (b0 / 4), encodeSextet (b0 % 4 * 16)]
  | [] => []

/-- Decoding without padding (not strict: unused low bits of the last
character are dropped). -/
def decode : List Char → Option (List Nat)
  | c0 :: c1 :: c2 :: c3 :: rest =>
    match decodeSextet c0, decodeSextet c1, decodeSextet c2, decodeSextet c3, decode rest with
    | some v0, some v1, some v2, some v3, some tail =>
      some ((v0 * 4 + v1 / 16) :: (v1 % 16 * 16 + v2 / 4) :: (v2 % 4 * 64 + v3) :: tail)
    | _, _, _, _, _ => none
  | [c0, c1, c2] =>
    match decodeSextet c0, decodeSextet c1, decodeSextet c2 with
    | some v0, some v1, some v2 => some [v0 * 4 + v1 / 16, v1 % 16 * 16 + v2 / 4]
    | _, _, _ => none
  | [c0, c1] =>
    match decodeSextet c0, decodeSextet c1 with
    | some v0, some v1 => some [v0 * 4 + v1 / 16]
    | _, _ => none
  | [_] => none
  | [] => some []

/-- Go `base64.RawURLEncoding.EncodeToString`. -/
def EncodeToString (src : List Nat) : String := String.mk (encode src)

/-- Go `base64.RawURLEncoding.DecodeString`. -/
def DecodeString (s : String) : Option (List Nat) := decode s.toList

end base64

/-- The bytes of a Go string: the UTF-8 encoding of its text. -/
def stringBytes (s : String) : List Nat :=
  s.toList.flatMap (fun c => (String.utf8EncodeChar c).map UInt8.toNat)

/-- Go `crypto/rand.Read(b)` for a buffer of the given length: the bytes it
fills in, or its error. -/
abbrev RandRead := Nat → Except String (List Nat)

/-- The type of Go `sha256.Sum256`: the digest of a byte string. -/
abbrev Sum256 := List Nat → List Nat

namespace sha256

/-- The first 64 primes. -/
def primes : List Nat :=
  [2, 3, 5, 7, 11, 13, 17, 19, 23, 29, 31, 37, 41, 43, 47, 53,
   59, 61, 67, 71, 73, 79, 83, 89, 97, 101, 103, 107, 109, 113, 127, 131,
   137, 139, 149, 151, 157, 163, 167, 173, 179, 181, 191, 193, 197, 199, 211, 223,
   227, 229, 233, 239, 241, 251, 257, 263, 269, 271, 277, 281, 283, 293, 307, 311]

/-- The integer part of the `k`-th root of `n`, for roots below `2 ^ 40`: the
largest `x` with `x ^ k ≤ n`, found bit by bit from the top. -/
def iroot (k n : Nat) : Nat :=
  (List.range 40).foldl
    (fun x i => if (x + 2 ^ (39 - i)) ^ k ≤ n then x + 2 ^ (39 - i) else x) 0

/-- The round constants of SHA-256: the first 32 bits of the fractional parts
of the cube roots of the first 64 primes. -/
def K : List Nat := primes.map (fun p => iroot 3 (p * 2 ^ 96) % 2 ^ 32)

/-- The eight 32-bit words of the hash value. -/
structure State where
  a : Nat
  b : Nat
  c : Nat
  d : Nat
  e : Nat
  f : Nat
  g : Nat
  h : Nat
  deriving DecidableEq, Repr

/-- The first 32 bits of the fractional part of the square root of a prime. -/
def sqrtBits (p : Nat) : Nat := iroot 2 (p * 2 ^ 64) % 2 ^ 32

/-- The initial hash value: the first 32 bits of the fractional parts of the
square roots of the first 8 primes. -/
def init : State :=
  { a := sqrtBits 2, b := sqrtBits 3, c := sqrtBits 5, d := sqrtBits 7,
    e := sqrtBits 11, f := sqrtBits 13, g := sqrtBits 17, h := sqrtBits 19 }

/-- Rotation of a 32-bit word to the right. -/
def rotr (x n : Nat) : Nat := (x >>> n ||| x <<< (32 - n)) % 2 ^ 32

/-- The function `Σ0`. -/
def bigSigma0 (x : Nat) : Nat := rotr x 2 ^^^ rotr x 13 ^^^ rotr x 22

/-- The function `Σ1`. -/
def bigSigma1 (x : Nat) : Nat := rotr x 6 ^^^ rotr x 11 ^^^ rotr x 25

/-- The function `σ0`. -/
def smallSigma0 (x : Nat) : Nat := rotr x 7 ^^^ rotr x 18 ^^^ x >>> 3

/-- The function `σ1`. -/
def smallSigma1 (x : Nat) : Nat := rotr x 17 ^^^ rotr x 19 ^^^ x >>> 10

/-- The function `Ch`: the bits of `y` where `x` is set, those of `z` elsewhere. -/
def ch (x y z : Nat) : Nat := (x &&& y) ^^^ ((2 ^ 32 - 1 - x) &&& z)

/-- The function `Maj`. -/
def maj (x y z : Nat) : Nat := (x &&& y) ^^^ (x &&& z) ^^^ (y &&& z)

/-- The padded message: the byte `0x80`, zero bytes up to 56 modulo 64, and
the length of the message in bits as 8 bytes, most significant first. -/
def pad (msg : List Nat) : List Nat :=
  msg ++ [0x80] ++ List.replicate ((119 - msg.length % 64) % 64) 0
    ++ (List.range 8).map (fun i => 8 * msg.length / 256 ^ (7 - i) % 256)

/-- The 32-bit words of a byte string, most significant byte first. -/
def words : List Nat → List Nat
  | b0 :: b1 :: b2 :: b3 :: rest => (((b0 * 256 + b1) * 256 + b2) * 256 + b3) :: words rest
  | _ => []

/-- The first `n` blocks of 16 words. -/
def blocks : Nat → List Nat → List (List Nat)
  | 0, _ => []
  | n + 1, ws => ws.take 16 :: blocks n (ws.drop 16)

/-- The message schedule: the 16 words of the block, extended to 64. -/
def schedule (block : List Nat) : List Nat :=
  (List.range 48).foldl
    (fun w i =>
      w ++ [(smallSigma1 (w.getD (i + 14) 0) + w.getD (i + 9) 0
              + smallSigma0 (w.getD (i + 1) 0) + w.getD i 0) % 2 ^ 32])
    block

/-- One round of the compression function. -/
def round (s : State) (kw : Nat × Nat) : State :=
  let t1 := s.h + bigSigma1 s.e + ch s.e s.f s.g + kw.1 + kw.2
  let t2 := bigSigma0 s.a + maj s.a s.b s.c
  { a := (t1 + t2) % 2 ^ 32, b := s.a, c := s.b, d := s.c,
    e := (s.d + t1) % 2 ^ 32, f := s.e, g := s.f, h := s.g }

/-- The compression of one block into the hash value. -/
def compress (hv : State) (block : List Nat) : State :=
  let s := (K.zip (schedule block)).foldl round hv
  { a := (hv.a + s.a) % 2 ^ 32, b := (hv.b + s.b) % 2 ^ 32, c := (hv.c + s.c) % 2 ^ 32,
    d := (hv.d + s.d) % 2 ^ 32, e := (hv.e + s.e) % 2 ^ 32, f := (hv.f + s.f) % 2 ^ 32,
    g := (hv.g + s.g) % 2 ^ 32, h := (hv.h + s.h) % 2 ^ 32 }

/-- The four bytes of a 32-bit word, most significant first. -/
def wordBytes (w : Nat) : List Nat :=
  [w / 2 ^ 24 % 256, w / 2 ^ 16 % 256, w / 2 ^ 8 % 256, w % 256]

/-- The 32 bytes of a hash value. -/
def State.bytes (s : State) : List Nat :=
  wordBytes s.a ++ wordBytes s.b ++ wordBytes s.c ++ wordBytes s.d
    ++ wordBytes s.e ++ wordBytes s.f ++ wordBytes s.g ++ wordBytes s.h

/-- Go `sha256.Sum256(data)`: the SHA-256 digest (FIPS 180-4) of a byte string. -/
def Sum256 (data : List Nat) : List Nat :=
  let ws := words (pad data)
  ((blocks (ws.length / 16) ws).foldl compress init).bytes

end sha256

/-- The run of a Go function that may panic: it returns, or it panics. -/
inductive Run (α : Type) where
  | returns (a : α)
  | panics (msg : String)
  deriving DecidableEq, Repr

/-- The zero `time.Time{}`: 0001-01-01T00:00:00Z. -/
def zeroTime : Int := -62135596800000000000

/-- The four results of `GenerateRefreshToken`; `err` is `none` for nil. -/
structure RefreshToken where
  plain : String
  hashed : String
  expiresAt : Int
  err : Option String
  deriving DecidableEq, Repr

/-- Go function `hmacService.NewOpaqueToken`: the token and the error (`none`
for nil).  `make([]byte, nBytes)` panics for a negative length. -/
def hmacService.NewOpaqueToken (_s : hmacService) (rand : RandRead) (nBytes : Int) :
    Run (String × Option String) :=
  if nBytes < 0 then .panics "runtime error: makeslice: len out of range"
  else
    match rand nBytes.toNat with
    | .error err => .returns ("", some err)
    | .ok b => .returns (base64.EncodeToString b, none)

/-- Go function `hmacService.HashRefreshToken`. -/
def hmacService.HashRefreshToken (_s : hmacService) (sum256 : Sum256) (plain : String) :
    String × Option String :=
  let h := sum256 (stringBytes plain)
  (base64.EncodeToString h, none)

/-- Go function `hmacService.GenerateRefreshToken` at clock reading `now`. -/
def hmacService.GenerateRefreshToken (s : hmacService) (rand : RandRead) (sum256 : Sum256)
    (now : Int) : Run RefreshToken :=
  match s.NewOpaqueToken rand 32 with
  | .panics msg => .panics msg
  | .returns (_, some err) => .returns { plain := "", hashed := "", expiresAt := zeroTime, err := some err }
  | .returns (plain, none) =>
    match s.HashRefreshToken sum256 plain with
    | (_, some err) => .returns { plain := "", hashed := "", expiresAt := zeroTime, err := some err }
    | (hashed, none) =>
      .returns { plain := plain, hashed := hashed, expiresAt := now + s.cfg.RefreshTTL,
                 err := none }

/-- Go function `rsaService.NewOpaqueToken`: a length of zero or less is
replaced by 32. -/
def rsaService.NewOpaqueToken (_s : rsaService) (rand : RandRead) (nBytes : Int) :
    Run (String × Option String) :=
  let nBytes := if nBytes ≤ 0 then 32 else nBytes
  if nBytes < 0 then .panics "runtime error: makeslice: len out of range"
  else
    match rand nBytes.toNat with
    | .error err => .returns ("", some err)
    | .ok b => .returns (base64.EncodeToString b, none)

/-- Go function `rsaService.HashRefreshToken`. -/
def rsaService.HashRefreshToken (_s : rsaService) (sum256 : Sum256) (plain : String) :
    String × Option String :=
  if plain = "" then ("", some "empty token")
  else
    let h := sum256 (stringBytes plain)
    (base64.EncodeToString h, none)

/-- Go function `rsaService.GenerateRefreshToken` at clock reading `now`. -/
def rsaService.GenerateRefreshToken (s : rsaService) (rand : RandRead) (sum256 : Sum256)
    (now : Int) : Run RefreshToken :=
  match s.NewOpaqueToken rand 32 with
  | .panics msg => .panics msg
  | .returns (_, some err) => .returns { plain := "", hashed := "", expiresAt := zeroTime, err := some err }
  | .returns (plain, none) =>
    match s.HashRefreshToken sum256 plain with
    | (_, some err) => .returns { plain := "", hashed := "", expiresAt := zeroTime, err := some err }
    | (hashed, none) =>
      .returns { plain := plain, hashed := hashed, expiresAt := now + s.cfg.RefreshTTL,
                 err := none }

/-! ## `services/auth`: `entities.User`, the collaborators of the use case,
`authUsecase.Login` -/

namespace entities

/-- Go type `entities.User` of `services/auth`. -/
structure User where
  ID : Nat
  Email : String
  Password : String
  Role : String
  IsActive : Bool
  CreatedAt : Int
  UpdatedAt : Int
  deriving DecidableEq, Repr

end entities

/-- Go interface `db.UserRepository`, as far as `Login` uses it: the user
(`none` for nil) and the error (the empty chain for nil) of `GetByEmail`. -/
structure UserRepository where
  GetByEmail : String → Option entities.User × errs.Error

/-- Go interface `passhash.Service`, as far as `Login` uses it. -/
structure passhashService where
  Verify : String → String → Bool

/-- Go interface `jwt.Service`, as far as `Login` uses it: the results of
`GenerateAccessToken` (token, error) and of `GenerateRefreshToken` (plain,
hashed, expiresAt, error) for a user. -/
structure jwtService where
  GenerateAccessToken : entities.User → String × errs.Error
  GenerateRefreshToken : entities.User → String × String × Int × errs.Error

/-- Go type `authUsecase` (without its logger). -/
structure authUsecase where
  userRepo : UserRepository
  jwtSvc : jwtService
  hasher : passhashService

/-- A call on a collaborator.  `Save` is `RefreshTokenRepository.Save`, the
call that creates a record of the refresh-token ledger. -/
inductive Call where
  | GetByEmail (email : String)
  | Verify (hashed plain : String)
  | GenerateAccessToken (u : entities.User)
  | GenerateRefreshToken (u : entities.User)
  | Save (userID : Nat) (tokenHash : String) (expiresAt : Int)
  deriving DecidableEq, Repr

/-- The three results of `Login` and the calls it made on its collaborators,
in order. -/
structure LoginResult where
  accessToken : String
  refreshToken : String
  err : errs.Error
  calls : List Call
  deriving DecidableEq, Repr

/-- Go function `authUsecase.Login`. -/
def authUsecase.Login (a : authUsecase) (email password : String) : LoginResult :=
  match a.userRepo.GetByEmail email with
  | (u, err) =>
    if err ≠ [] then
      { accessToken := "", refreshToken := "", err := err, calls := [.GetByEmail email] }
    else
      match u with
      | none =>
        { accessToken := "", refreshToken := "", err := [.plain "invalid credentials"],
          calls := [.GetByEmail email] }
      | some u =>
        if !a.hasher.Verify u.Password password then
          { accessToken := "", refreshToken := "", err := [.plain "invalid credentials"],
            calls := [.GetByEmail email, .Verify u.Password password] }
        else
          match a.jwtSvc.GenerateAccessToken u with
          | (access, err) =>
            if err ≠ [] then
              { accessToken := "", refreshToken := "", err := err,
                calls := [.GetByEmail email, .Verify u.Password password,
                          .GenerateAccessToken u] }
            else
              match a.jwtSvc.GenerateRefreshToken u with
              | (refresh, _, _, err) =>
                if err ≠ [] then
                  { accessToken := "", refreshToken := "", err := err,
                    calls := [.GetByEmail email, .Verify u.Password password,
                              .GenerateAccessToken u, .GenerateRefreshToken u] }
                else
                  { accessToken := access, refreshToken := refresh, err := [],
                    calls := [.GetByEmail email, .Verify u.Password password,
                              .GenerateAccessToken u, .GenerateRefreshToken u] }

/-! ## The refresh-token ledger

The repository declares the interface `RefreshTokenRepository` (`Save`,
`FindByHash`, `Revoke`, `Rotate`) and has no implementation of it, nor a use
case that rotates a refresh token.  The ledger below follows sections 3, 4.5
and 7 of the specification. -/

/-- Modelled from the spec: the `RefreshTokenRecord` of section 3 (no
implementation of `RefreshTokenRepository` is in the repository). -/
structure RefreshTokenRecord where
  token_hash : String
  subject_id : Nat
  expires_at : Int
  revoked : Bool
  created_at : Int
  deriving DecidableEq, Repr

/-- Modelled from the spec: the state of the `RefreshTokenLedger`, its records
in the order of their creation. -/
abbrev Ledger := List RefreshTokenRecord

/-- Modelled from the spec: the failures of the ledger named in sections 4.5
and 7, not-found, the rotation conflict, and the refusal of an expired
token. -/
inductive LedgerError where
  | NotFound
  | RotationConflict
  | Unauthorized
  deriving DecidableEq, Repr

/-- Modelled from the spec: `findByHash(hash) -> RefreshTokenRecord |
not-found` of section 4.5. -/
def Ledger.findByHash (l : Ledger) (hash : String) : Option RefreshTokenRecord :=
  l.find? (fun r => decide (r.token_hash = hash))

/-- Modelled from the spec: `save(subject_id, hash, expires_at)` of section
4.5, at the time `now`: a new record, not revoked. -/
def Ledger.save (l : Ledger) (now : Int) (subject_id : Nat) (hash : String) (expires_at : Int) :
    Ledger :=
  l ++ [{ token_hash := hash, subject_id := subject_id, expires_at := expires_at,
          revoked := false, created_at := now }]

/-- Modelled from the spec: `revoke(hash)` of section 4.5: the records of
that hash are marked revoked. -/
def Ledger.revoke (l : Ledger) (hash : String) : Ledger :=
  l.map (fun r => if r.token_hash = hash then { r with revoked := true } else r)

/-- Modelled from the spec: the invariant of section 3, a refresh token is
accepted only if its hash matches a non-revoked, non-expired record. -/
def Ledger.valid (l : Ledger) (now : Int) (hash : String) : Bool :=
  match l.findByHash hash with
  | some r => !r.revoked && decide (now < r.expires_at)
  | none => false

/-- Modelled from the spec: `rotate(old_hash, new_hash, new_expires_at)` of
section 4.5 at the time `now`, one atomic step: an unknown hash is not found,
an already rotated (revoked) hash is a conflict, an expired one is refused;
otherwise the old record is revoked and the new one inserted for the same
subject.  The result is the error (`none` for success) and the ledger
afterwards. -/
def Ledger.rotate (l : Ledger) (now : Int) (old_hash new_hash : String) (new_expires_at : Int) :
    Option LedgerError × Ledger :=
  match l.findByHash old_hash with
  | none => (some .NotFound, l)
  | some r =>
    if r.revoked then (some .RotationConflict, l)
    else if r.expires_at ≤ now then (some .Unauthorized, l)
    else (none, (l.revoke old_hash).save now r.subject_id new_hash new_expires_at)

/-- Modelled from the spec: the rotation protocol of section 4.5 for a
presented plaintext `T` and a freshly generated plaintext `T'`: the core
hashes both and rotates the ledger from the one hash to the other, the new
record expiring `refreshTTL` after `now`.  On success the new plaintext is
returned. -/
def rotateRefreshToken (hash : String → String) (refreshTTL : Int) (l : Ledger) (now : Int)
    (T T' : String) : Except LedgerError String × Ledger :=
  match l.rotate now (hash T) (hash T') (now + refreshTTL) with
  | (some err, l') => (.error err, l')
  | (none, l') => (.ok T', l')

/-- The ledger after a sequence of collaborator calls: each `Save` creates a
record, no other call of the list touches the ledger. -/
def Ledger.afterCalls (l : Ledger) (now : Int) : List Call → Ledger
  | [] => l
  | .Save userID tokenHash expiresAt :: rest =>
    (l.save now userID tokenHash expiresAt).afterCalls now rest
  | _ :: rest => l.afterCalls now rest

/-! ## Sample inputs

Concrete services, keys and tokens at which the statements below are
evaluated. -/

/-- An HMAC service with a 15 minute access TTL. -/
def sampleHMAC : hmacService :=
  NewHMACService
    { AccessSecret := [115, 51, 99, 114, 51, 116]
      AccessTTL := 15 * 60 * Second
      RefreshTTL := 7 * 24 * 60 * 60 * Second
      Issuer := "digital-bank"
      Audience := "bank-api" }

/-- The configuration of the sample RSA service. -/
def sampleConfig : Config :=
  { Issuer := "digital-bank"
    Audience := "bank-api"
    AccessTTL := 15 * 60 * Second
    RefreshTTL := 7 * 24 * 60 * 60 * Second
    KeyID := "kid-2024" }

/-- The key pair of the sample RSA service. -/
def samplePriv : RSAPrivateKey := { id := 1 }

/-- A clock reading: 2023-11-14T22:13:20.25Z. -/
def sampleNow : Int := 1700000000250000000

/-- A user whose id, `2 ^ 53 + 1`, is not a `float64`. -/
def largeIdUser : User := { ID := 9007199254740993, Email := "a@b.com", Role := "user" }

/-- A second user. -/
def sampleUser : User := { ID := 42, Email := "a@b.com", Role := "user" }

/-- The published key of the sample RSA service. -/
def sampleKey1 : jwx.Key :=
  { kid := some "kid-2024", alg := some "RS256", usage := some "sig", pub := samplePriv.Public }

/-- The published key of another signer (key pair 2). -/
def sampleKey2 : jwx.Key :=
  { kid := some "kid-2025", alg := some "RS256", usage := some "sig", pub := { id := 2 } }

/-- The key of a third key pair, whose key id `key-2025` contains neither
`kid` nor `no key`. -/
def sampleKey3 : jwx.Key :=
  { kid := some "key-2025", alg := some "RS256", usage := some "sig", pub := { id := 3 } }

/-- A resource server's verifier for the sample RSA service, with only
`sampleKey1` cached. -/
def sampleVerifier : remoteVerifier :=
  { jwksURL := "https://auth.example/.well-known/jwks.json"
    issuer := "digital-bank"
    audience := "bank-api"
    refreshInterval := 5 * 60 * Second
    keySet := [sampleKey1] }

/-- The sample HMAC service with an access TTL of one second. -/
def oneSecondHMAC : hmacService :=
  NewHMACService { sampleHMAC.cfg with AccessTTL := Second }

/-- The same verifier after its initial fetch returned a key set without
keys. -/
def emptyVerifier : remoteVerifier := { sampleVerifier with keySet := [] }

/-- The sample RSA service, as `NewRSAService` builds it. -/
def sampleRSA : rsaService :=
  { cfg := sampleConfig, priv := samplePriv, pub := samplePriv.Public, jwkKey := sampleKey1 }

/-- The payload of a token of a foreign issuer and audience, valid for an hour
from `sampleNow`. -/
def foreignPayload : Payload :=
  { iss := some "someone-else"
    aud := ["elsewhere"]
    exp := some 1700003600
    nbf := none
    iat := some 1700000000
    uid := some (.num 7)
    email := some (.str "eve@x.org")
    role := some (.str "admin") }

/-- The payload of a token of the sample issuer and audience, valid for an
hour from `sampleNow`. -/
def ownPayload : Payload :=
  { iss := some "digital-bank"
    aud := ["bank-api"]
    exp := some 1700003600
    nbf := none
    iat := some 1700000000
    uid := some (.num 42)
    email := some (.str "a@b.com")
    role := some (.str "user") }

/-- The sample payload with `exp` set to the date `0`. -/
def zeroExpPayload : Payload := { ownPayload with exp := some 0 }

/-- A payload that expired long ago. -/
def stalePayload : Payload :=
  { iss := some "digital-bank"
    aud := ["bank-api"]
    exp := some 1699990000
    nbf := none
    iat := some 1699989100
    uid := some (.num 42)
    email := some (.str "a@b.com")
    role := some (.str "user") }

/-- A payload that expired long ago and is dated in the future. -/
def postdatedStalePayload : Payload :=
  { iss := some "digital-bank"
    aud := ["bank-api"]
    exp := some 1699990000
    nbf := none
    iat := some 1700009000
    uid := some (.num 42)
    email := some (.str "a@b.com")
    role := some (.str "user") }

/-- The payload `p` signed with the sample HMAC secret under `alg`. -/
def hmacSigned (alg : String) (p : Payload) : Token :=
  { header := { alg := alg, kid := none }
    payload := p
    sig := Sig.hmac alg sampleHMAC.cfg.AccessSecret { alg := alg, kid := none } p }

/-- The payload `p` signed with RS256 by key pair `pair` under key id `kid`. -/
def rsaSigned (pair : Nat) (kid : String) (p : Payload) : Token :=
  { header := { alg := "RS256", kid := some kid }
    payload := p
    sig := Sig.rsa "RS256" pair { alg := "RS256", kid := some kid } p }

/-- The foreign payload signed by key pair 2 under key id `kid-2025`. -/
def foreignToken : Token := rsaSigned 2 "kid-2025" foreignPayload

/-- A payload with valid time claims and none of `uid`, `email`, `role`. -/
def anonymousPayload : Payload :=
  { iss := some "digital-bank"
    aud := ["bank-api"]
    exp := some 1700003600
    nbf := none
    iat := some 1700000000
    uid := none
    email := none
    role := none }

/-- A payload with valid time claims whose `uid` is a string, whose `email` is
a number and whose `role` is a boolean. -/
def mistypedPayload : Payload :=
  { iss := some "digital-bank"
    aud := ["bank-api"]
    exp := some 1700003600
    nbf := none
    iat := some 1700000000
    uid := some (.str "42")
    email := some (.num 7)
    role := some (.bool true) }

/-- A random source that fills a buffer of `n` bytes with `0, 1, ..., n - 1`. -/
def countingRand : RandRead := fun n => .ok (List.range n)

/-- A random source that fails. -/
def failingRand : RandRead := fun _ => .error "entropy source unavailable"

/-- A stand-in for a digest function: 32 zero bytes for every input. -/
def zeroDigest : Sum256 := fun _ => List.replicate 32 0

/-- A registered user; the stored password is the text `bcrypt(hunter2)`. -/
def storedUser : entities.User :=
  { ID := 42, Email := "a@b.com", Password := "bcrypt(hunter2)", Role := "user",
    IsActive := true, CreatedAt := 0, UpdatedAt := 0 }

/-- A use case over a repository that knows `storedUser`, a hasher that
accepts `hunter2` for it, and a token service that issues a fixed access token
and the refresh token `sampleHMAC` generates from the bytes 0 to 31. -/
def sampleUsecase : authUsecase :=
  { userRepo :=
      { GetByEmail := fun email =>
          if email = "a@b.com" then (some storedUser, [])
          else (none, [.coded errs.CodeNotFound "user not found", .plain "record not found"]) }
    hasher := { Verify := fun hashed plain => decide (hashed = "bcrypt(" ++ plain ++ ")") }
    jwtSvc :=
      { GenerateAccessToken := fun _ => ("header.payload.signature", [])
        GenerateRefreshToken := fun _ =>
          (base64.EncodeToString (List.range 32),
           base64.EncodeToString (zeroDigest (stringBytes (base64.EncodeToString (List.range 32)))),
           sampleNow + sampleHMAC.cfg.RefreshTTL, []) } }

/-- The claims the sample validator returns. -/
def sampleClaims : Claims := { UserID := 42, Email := "a@b.com", Role := "user" }

/-- A validator for the middleware that accepts the token `good` only. -/
def sampleValidate (token : String) : Except String Claims :=
  if token = "good" then .ok sampleClaims else .error "invalid token"

/-! ## Predicates used in the statements -/

/-- The token is signed with the HMAC secret under the HMAC algorithm its
header declares. -/
def SignedByHMAC (secret : List Nat) (t : Token) : Prop :=
  t.header.alg ∈ ["HS256", "HS384", "HS512"]
    ∧ t.sig = Sig.hmac t.header.alg secret t.header t.payload

instance (secret : List Nat) (t : Token) : Decidable (SignedByHMAC secret t) := by
  unfold SignedByHMAC; infer_instance

/-- The token is signed for the RSA service: the header names the service's
key id and the signature is the RS256 signature, over this header and payload,
of the key pair of the service's public key.  (The algorithm the header names
is not looked at.) -/
def SignedByRSA (s : rsaService) (t : Token) : Prop :=
  t.header.kid = some s.cfg.KeyID
    ∧ t.sig = Sig.rsa "RS256" s.pub.id t.header t.payload

instance (s : rsaService) (t : Token) : Decidable (SignedByRSA s t) := by
  unfold SignedByRSA; infer_instance

/-- The token names a key id under which the key set holds a key that
verifies its signature: the key carries an algorithm, an RSA one, and the
signature is that of the key's pair under that algorithm. -/
def VerifiesUnder (set : jwx.Set) (t : Token) : Prop :=
  ∃ kid key alg, t.header.kid = some kid ∧ jwx.LookupKeyID set kid = some key
    ∧ key.alg = some alg ∧ alg ∈ jwx.rsaAlgs
    ∧ t.sig = Sig.rsa alg key.pub.id t.header t.payload

/-- The time claims of the payload hold at `now`, read to the second: it was
not issued in the future, has not expired, and is not to be used only later. -/
def Payload.validAt (p : Payload) (now : Int) : Prop :=
  (∀ i ∈ p.iat, i ≤ unix now) ∧ (∀ e ∈ p.exp, unix now < e) ∧ (∀ n ∈ p.nbf, n ≤ unix now)

instance (p : Payload) (now : Int) : Decidable (p.validAt now) := by
  unfold Payload.validAt; infer_instance

/-- The payload is valid for the verifier at `now`: its time claims hold, its
`iss` is the configured issuer when one is configured, and its `aud` holds the
configured audience when one is configured. -/
def ValidFor (r : remoteVerifier) (p : Payload) (now : Int) : Prop :=
  p.validAt now ∧ (r.issuer ≠ "" → p.iss = some r.issuer)
    ∧ (r.audience ≠ "" → r.audience ∈ p.aud)

instance (r : remoteVerifier) (p : Payload) (now : Int) : Decidable (ValidFor r p now) := by
  unfold ValidFor; infer_instance

end DigitalBank

/-! # Statements -/

namespace DigitalBank

/-! ## Lemmas on the two validators -/

/-- The claims a payload decodes to: `extractClaimsFromToken` never fails. -/
theorem extractClaims_ok (p : Payload) : ∃ c, extractClaimsFromToken p = .ok c :=
  ⟨_, rfl⟩

/-- Lemma: `hmacService.ValidateAccessToken` on a token signed with the secret: the
outcome is decided by the validator of the claims. -/
theorem hmac_validate_signed (s : hmacService) (now : Int) (t : Token) (c : Claims)
    (hsig : SignedByHMAC s.cfg.AccessSecret t)
    (hc : extractClaimsFromToken t.payload = .ok c) :
    s.ValidateAccessToken now (.compact t)
      = if golangjwt.validate (5 * Second) now t.payload = [] then .ok c
        else if golangjwt.Sentinel.ErrTokenExpired ∈ golangjwt.validate (5 * Second) now t.payload
          then .error .ErrExpiredToken
        else .error .ErrInvalidToken := by
  obtain ⟨halg, hsig⟩ := hsig
  have hm : golangjwt.GetSigningMethod t.header.alg = some (.HMAC t.header.alg) := by
    simp [golangjwt.GetSigningMethod, halg]
  simp only [extractClaimsFromToken, Except.ok.injEq] at hc
  subst hc
  cases hv : golangjwt.validate (5 * Second) now t.payload with
  | nil =>
    simp [hmacService.ValidateAccessToken, golangjwt.Parse, hm, hmacService.keyFunc,
      golangjwt.SigningMethod.Verify, hsig.symm, hv]
  | cons e es =>
    simp [hmacService.ValidateAccessToken, golangjwt.Parse, hm, hmacService.keyFunc,
      golangjwt.SigningMethod.Verify, hsig.symm, hv, golangjwt.Is]

/-- Lemma: `hmacService.ValidateAccessToken` refuses as invalid every token that is
not signed with the secret under an HMAC algorithm. -/
theorem hmac_validate_unsigned (s : hmacService) (now : Int) (t : Token)
    (hsig : ¬ SignedByHMAC s.cfg.AccessSecret t) :
    s.ValidateAccessToken now (.compact t) = .error .ErrInvalidToken := by
  unfold SignedByHMAC at hsig
  by_cases halg : t.header.alg ∈ ["HS256", "HS384", "HS512"]
  · have hm : golangjwt.GetSigningMethod t.header.alg = some (.HMAC t.header.alg) := by
      simp [golangjwt.GetSigningMethod, halg]
    have hne : ¬ t.sig = Sig.hmac t.header.alg s.cfg.AccessSecret t.header t.payload :=
      fun h => hsig ⟨halg, h⟩
    simp [hmacService.ValidateAccessToken, golangjwt.Parse, hm, hmacService.keyFunc,
      golangjwt.SigningMethod.Verify, hne, golangjwt.Is]
  · by_cases hother : t.header.alg ∈ ["RS256", "RS384", "RS512", "PS256", "PS384", "PS512",
        "ES256", "ES384", "ES512", "EdDSA", "none"]
    · have hm : golangjwt.GetSigningMethod t.header.alg = some (.nonHMAC t.header.alg) := by
        simp only [golangjwt.GetSigningMethod, halg, hother, if_true, if_false]
      simp [hmacService.ValidateAccessToken, golangjwt.Parse, hm, hmacService.keyFunc,
        golangjwt.Is]
    · have hm : golangjwt.GetSigningMethod t.header.alg = none := by
        simp only [golangjwt.GetSigningMethod, halg, hother, if_false]
      simp [hmacService.ValidateAccessToken, golangjwt.Parse, hm, golangjwt.Is]

/-- The golang-jwt validator passes a payload whose `exp` lies within the
leeway and whose `nbf` is not beyond it. -/
theorem gj_validate_nil (leeway now : Int) (p : Payload)
    (hexp : ∀ e ∈ p.exp, now < ofUnix e + leeway)
    (hnbf : ∀ n ∈ p.nbf, ofUnix n - leeway ≤ now) :
    golangjwt.validate leeway now p = [] := by
  unfold golangjwt.validate
  cases he : p.exp with
  | none =>
    cases hn : p.nbf with
    | none => simp
    | some n =>
      have h2 := hnbf n (by simp [hn])
      have h3 : ¬ now < ofUnix n - leeway := by omega
      simp [h3]
  | some e =>
    have h1 := hexp e (by simp [he])
    cases hn : p.nbf with
    | none => simp [h1]
    | some n =>
      have h2 := hnbf n (by simp [hn])
      have h3 : ¬ now < ofUnix n - leeway := by omega
      simp [h1, h3]

/-- The golang-jwt validator reports `ErrTokenExpired` for a payload whose
`exp` is not the date `0` and lies the leeway or more in the past, whatever
else it reports. -/
theorem gj_validate_expired (leeway now : Int) (p : Payload) (e : Int)
    (he : p.exp = some e) (hne : e ≠ 0) (hpast : ofUnix e + leeway ≤ now) :
    golangjwt.Sentinel.ErrTokenExpired ∈ golangjwt.validate leeway now p
      ∧ golangjwt.validate leeway now p ≠ [] := by
  have h1 : ¬ now < ofUnix e + leeway := by omega
  unfold golangjwt.validate
  simp [he, hne, h1]

/-- What `NewRSAService` returns when it returns a service. -/
theorem rsa_new_ok (cfg : Config) (priv : RSAPrivateKey) (pub : RSAPublicKey)
    (rs : rsaService) (hnew : NewRSAService cfg (some priv) (some pub) = .ok rs) :
    cfg.KeyID ≠ ""
      ∧ rs = { cfg := cfg, priv := priv, pub := pub,
               jwkKey := { kid := some cfg.KeyID, alg := some "RS256", usage := some "sig",
                           pub := pub } } := by
  unfold NewRSAService at hnew
  by_cases hk : cfg.KeyID = ""
  · simp [hk] at hnew
  · simp only [hk, if_false, Except.ok.injEq] at hnew
    exact ⟨hk, hnew.symm⟩

/-- Lemma: `rsaService.ValidateAccessToken` on a token signed by the service: the
outcome is decided by the validation of the claims. -/
theorem rsa_validate_signed (cfg : Config) (priv : RSAPrivateKey) (pub : RSAPublicKey)
    (rs : rsaService) (now : Int) (t : Token) (c : Claims)
    (hnew : NewRSAService cfg (some priv) (some pub) = .ok rs)
    (hsig : SignedByRSA rs t)
    (hc : extractClaimsFromToken t.payload = .ok c) :
    rs.ValidateAccessToken now (.compact t)
      = match jwx.validate { keySet := [rs.jwkKey], issuer := none, audience := none } now
            t.payload with
        | .ok _ => .ok c
        | .error e => if e = .expired then .error "token expired" else .error "invalid token" := by
  obtain ⟨_, hrs⟩ := rsa_new_ok cfg priv pub rs hnew
  obtain ⟨hhdr, hsig⟩ := hsig
  simp only [extractClaimsFromToken, Except.ok.injEq] at hc
  subst hc
  have hcfg : rs.cfg = cfg := by rw [hrs]
  have hpub : rs.pub = pub := by rw [hrs]
  have hkey : rs.jwkKey
      = { kid := some cfg.KeyID, alg := some "RS256", usage := some "sig", pub := pub } := by
    rw [hrs]
  have hkid : t.header.kid = some cfg.KeyID := by rw [hhdr, hcfg]
  have hv : jwx.verify [rs.jwkKey] t = .ok () := by
    rw [hpub] at hsig
    simp [jwx.verify, hkey, hkid, jwx.LookupKeyID, jwx.rsaAlgs, hsig]
  simp only [rsaService.ValidateAccessToken, jwx.Parse, hv]
  cases hval : jwx.validate { keySet := [rs.jwkKey], issuer := none, audience := none } now
      t.payload with
  | ok u => simp
  | error e =>
    by_cases hexp : e = .expired
    · simp [hexp, jwx.IsTokenExpired]
    · simp [hexp, jwx.IsTokenExpired]

/-- The jwx validation passes a payload whose time claims hold, when neither
issuer nor audience is asked for. -/
theorem jwx_validate_ok (set : jwx.Set) (now : Int) (p : Payload) (h : p.validAt now) :
    jwx.validate { keySet := set, issuer := none, audience := none } now p = .ok () := by
  obtain ⟨hiat, hexp, hnbf⟩ := h
  have h1 : (match p.iat with | some i => decide (unix now < i) | none => false) = false := by
    cases hi : p.iat with
    | none => rfl
    | some i =>
      have := hiat i (by simp [hi])
      simp only [decide_eq_false_iff_not]
      omega
  have h2 : (match p.exp with | some e => decide (e ≤ unix now) | none => false) = false := by
    cases he : p.exp with
    | none => rfl
    | some e =>
      have := hexp e (by simp [he])
      simp only [decide_eq_false_iff_not]
      omega
  have h3 : (match p.nbf with | some n => decide (unix now < n) | none => false) = false := by
    cases hn : p.nbf with
    | none => rfl
    | some n =>
      have := hnbf n (by simp [hn])
      simp only [decide_eq_false_iff_not]
      omega
  simp [jwx.validate, h1, h2, h3]

/-- The jwx validation reports `expired` for a payload that was not issued in
the future and whose `exp` is not after the clock's second. -/
theorem jwx_validate_expired (o : jwx.Options) (now : Int) (p : Payload) (e : Int)
    (hiat : ∀ i ∈ p.iat, i ≤ unix now) (he : p.exp = some e) (hpast : e ≤ unix now) :
    jwx.validate o now p = .error .expired := by
  have h1 : (match p.iat with | some i => decide (unix now < i) | none => false) = false := by
    cases hi : p.iat with
    | none => rfl
    | some i =>
      have := hiat i (by simp [hi])
      simp only [decide_eq_false_iff_not]
      omega
  simp [jwx.validate, h1, he, hpast]

/-- Lemma: `rsaService.ValidateAccessToken` refuses as invalid every token that is not
signed by the service. -/
theorem rsa_validate_unsigned (cfg : Config) (priv : RSAPrivateKey) (pub : RSAPublicKey)
    (rs : rsaService) (now : Int) (t : Token)
    (hnew : NewRSAService cfg (some priv) (some pub) = .ok rs)
    (hsig : ¬ SignedByRSA rs t) :
    rs.ValidateAccessToken now (.compact t) = .error "invalid token" := by
  obtain ⟨_, hrs⟩ := rsa_new_ok cfg priv pub rs hnew
  have hcfg : rs.cfg = cfg := by rw [hrs]
  have hpub : rs.pub = pub := by rw [hrs]
  have hkey : rs.jwkKey
      = { kid := some cfg.KeyID, alg := some "RS256", usage := some "sig", pub := pub } := by
    rw [hrs]
  have hv : jwx.verify [rs.jwkKey] t = .error (.keyLookup t.header.kid)
      ∨ jwx.verify [rs.jwkKey] t = .error .signature := by
    unfold jwx.verify
    cases hk : t.header.kid with
    | none => exact Or.inl rfl
    | some kid =>
      by_cases hkk : kid = cfg.KeyID
      · right
        have hl : jwx.LookupKeyID [rs.jwkKey] kid = some rs.jwkKey := by
          simp [jwx.LookupKeyID, hkey, hkk]
        have ha : rs.jwkKey.alg = some "RS256" := by rw [hkey]
        simp only [hl, ha]
        have hcond : ¬ ("RS256" ∈ jwx.rsaAlgs
            ∧ t.sig = Sig.rsa "RS256" rs.jwkKey.pub.id t.header t.payload) := by
          rintro ⟨_, hs⟩
          apply hsig
          refine ⟨?_, ?_⟩
          · rw [hk, hkk, hcfg]
          · rw [hs, hkey, hpub]
        simp only [hcond, if_false]
      · left
        have hl : jwx.LookupKeyID [rs.jwkKey] kid = none := by
          simp [jwx.LookupKeyID, hkey, Ne.symm hkk]
        simp only [hl]
  rcases hv with hv | hv <;>
    simp [rsaService.ValidateAccessToken, jwx.Parse, hv, jwx.IsTokenExpired]

/-! ## Lemmas on the remote verifier -/

/-- The substring test of `Verify` is met by no message but that of a failed
key lookup. -/
theorem mentionsKey_keyLookup (err : jwx.ParseError)
    (h : (stringsContains err.Error "no key" || stringsContains err.Error "kid") = true) :
    ∃ kid, err = .keyLookup kid := by
  cases err with
  | keyLookup kid => exact ⟨kid, rfl⟩
  | malformed => exact absurd h (by decide)
  | signature => exact absurd h (by decide)
  | issuedAt => exact absurd h (by decide)
  | expired => exact absurd h (by decide)
  | notYetValid => exact absurd h (by decide)
  | issuer => exact absurd h (by decide)
  | audience => exact absurd h (by decide)

/-- Signature verification fails on the key lookup when the header names no
key id, or one the set does not hold. -/
theorem jwx_verify_keyLookup (set : jwx.Set) (t : Token)
    (h : ∀ kid, t.header.kid = some kid → jwx.LookupKeyID set kid = none) :
    jwx.verify set t = .error (.keyLookup t.header.kid) := by
  unfold jwx.verify
  cases hk : t.header.kid with
  | none => rfl
  | some kid => simp only [h kid hk]

/-- Signature verification succeeds under a key set that holds a verifying key
for the token's key id. -/
theorem jwx_verify_ok (set : jwx.Set) (t : Token) (h : VerifiesUnder set t) :
    jwx.verify set t = .ok () := by
  obtain ⟨kid, key, alg, hk, hl, ha, hr, hs⟩ := h
  unfold jwx.verify
  simp only [hk, hl, ha]
  rw [if_pos ⟨hr, hs⟩]

/-- A token whose signature verification fails does not parse, with the same
error, whatever the options and the clock. -/
theorem jwx_parse_verify_error (o : jwx.Options) (now : Int) (t : Token) (e : jwx.ParseError)
    (h : jwx.verify o.keySet t = .error e) :
    jwx.Parse o now (.compact t) = .error e := by
  simp only [jwx.Parse, h]

/-- The outcome of `Verify`, path by path. -/
theorem verify_paths (r : remoteVerifier) (fetched : FetchResult) (now later : Int)
    (tokenStr : TokenStr) :
    r.Verify fetched now later tokenStr
      = if r.getSet = [] then { result := .error .ErrUnauthorized, after := r, fetches := 0 }
        else
          match jwx.Parse (r.opts r.getSet) now tokenStr with
          | .ok tok => { result := extractClaimsFromToken tok, after := r, fetches := 0 }
          | .error err =>
            if err = .expired then { result := .error .ErrExpired, after := r, fetches := 0 }
            else if (stringsContains err.Error "no key" || stringsContains err.Error "kid")
                = true then
              match jwx.Parse { keySet := (r.fetchOnce fetched).2.getSet, issuer := none,
                                audience := none } later tokenStr with
              | .ok tok2 =>
                { result := extractClaimsFromToken tok2, after := (r.fetchOnce fetched).2,
                  fetches := 1 }
              | .error _ =>
                { result := .error .ErrUnauthorized, after := (r.fetchOnce fetched).2,
                  fetches := 1 }
            else { result := .error .ErrUnauthorized, after := r, fetches := 0 } := by
  unfold remoteVerifier.Verify
  by_cases hset : r.getSet = []
  · simp [hset]
  · have hlen : ¬ r.getSet.length = 0 := by simpa using hset
    simp only [hlen, hset, if_false]
    cases hp : jwx.Parse (r.opts r.getSet) now tokenStr with
    | ok tok => rfl
    | error err =>
      simp only [jwx.IsTokenExpired, decide_eq_true_eq]

/-- On a key miss with a non-empty cached set, whether `Verify` refetches is
decided by the text of the key id: it does exactly when the message of the
failed lookup, which quotes the key id, contains `no key` or `kid`. -/
theorem verify_key_miss (r : remoteVerifier) (fetched : FetchResult) (now later : Int)
    (t : Token) (kid : String)
    (hcached : r.getSet ≠ []) (hkid : t.header.kid = some kid)
    (habsent : jwx.LookupKeyID r.getSet kid = none) :
    (r.Verify fetched now later (.compact t)).fetches
      = if (stringsContains (jwx.ParseError.keyLookup (some kid)).Error "no key"
            || stringsContains (jwx.ParseError.keyLookup (some kid)).Error "kid") = true
        then 1 else 0 := by
  have hfirst : jwx.Parse (r.opts r.getSet) now (.compact t)
      = .error (.keyLookup (some kid)) := by
    rw [← hkid]
    apply jwx_parse_verify_error
    apply jwx_verify_keyLookup
    intro k hk
    rw [hkid] at hk
    cases hk
    exact habsent
  have hne : jwx.ParseError.keyLookup (some kid) ≠ .expired := by
    intro h
    cases h
  rw [verify_paths]
  simp only [hcached, if_false, hfirst, hne]
  by_cases hm : (stringsContains (jwx.ParseError.keyLookup (some kid)).Error "no key"
      || stringsContains (jwx.ParseError.keyLookup (some kid)).Error "kid") = true
  · simp only [hm, if_true]
    cases jwx.Parse ⟨(r.fetchOnce fetched).2.getSet, none, none⟩ later (.compact t) <;> rfl
  · simp only [hm, if_false]
    rfl

/-! ## Lemmas on issuing and validating -/

/-- A user id below `2 ^ 53` survives the passage through a JSON number. -/
theorem uid_survives (n : Nat) (h : n < 2 ^ 53) : uint64OfFloat (float64OfNat n) = n := by
  have h1 : float64OfNat n = n := by
    unfold float64OfNat
    rw [if_pos h]
  have h2 : (0 : Int) ≤ (n : Int) ∧ (n : Int) < 2 ^ 64 := by
    constructor
    · omega
    · have : n < 2 ^ 64 := lt_trans h (by norm_num)
      exact_mod_cast this
  rw [h1]
  unfold uint64OfFloat
  rw [if_pos h2]
  exact Int.toNat_natCast n

/-- Issuing with `hmacService` at `t0` and validating at `now`, for a user id
below `2 ^ 53`: the user's claims while `now` is less than 5 seconds past the
token's `exp`, the expired error from then on; and the user's claims at any
time when the token's `exp` is the date `0`, which is read as no expiry. -/
theorem hmac_issue_then_validate (s : hmacService) (t0 now : Int) (u : User)
    (hid : u.ID < 2 ^ 53) :
    (s.GenerateAccessToken t0 u).bind (s.ValidateAccessToken now)
      = if unix (t0 + s.cfg.AccessTTL) = 0
            ∨ now < ofUnix (unix (t0 + s.cfg.AccessTTL)) + 5 * Second
          then .ok { UserID := u.ID, Email := u.Email, Role := u.Role }
        else .error .ErrExpiredToken := by
  simp only [hmacService.GenerateAccessToken, Except.bind]
  rw [hmac_validate_signed s now _ { UserID := u.ID, Email := u.Email, Role := u.Role }
    ⟨by simp, rfl⟩ (by simp [extractClaimsFromToken, uid_survives u.ID hid])]
  by_cases h0 : unix (t0 + s.cfg.AccessTTL) = 0
  · simp [golangjwt.validate, h0]
  · by_cases h : now < ofUnix (unix (t0 + s.cfg.AccessTTL)) + 5 * Second
    · simp [golangjwt.validate, h0, h]
    · simp [golangjwt.validate, h0, h]

/-- Issuing with `rsaService` at `t0` and validating at `now`, not before the
second of `t0`, for a user id below `2 ^ 53`: the user's claims while the
second of `now` is before the token's `exp`, the expired error from then
on. -/
theorem rsa_issue_then_validate (cfg : Config) (priv : RSAPrivateKey) (rs : rsaService)
    (t0 now : Int) (u : User)
    (hnew : NewRSAService cfg (some priv) (some priv.Public) = .ok rs)
    (hid : u.ID < 2 ^ 53) (hnow : unix t0 ≤ unix now) :
    (rs.GenerateAccessToken t0 u).bind (rs.ValidateAccessToken now)
      = if unix now < unix (t0 + cfg.AccessTTL)
          then .ok { UserID := u.ID, Email := u.Email, Role := u.Role }
        else .error "token expired" := by
  obtain ⟨_, hrs⟩ := rsa_new_ok cfg priv priv.Public rs hnew
  have hcfg : rs.cfg = cfg := by rw [hrs]
  have hpub : rs.pub = priv.Public := by rw [hrs]
  have hpriv : rs.priv = priv := by rw [hrs]
  simp only [rsaService.GenerateAccessToken, Except.bind]
  rw [rsa_validate_signed cfg priv priv.Public rs now _
    { UserID := u.ID, Email := u.Email, Role := u.Role } hnew
    ⟨rfl, by simp [hpub, hpriv, RSAPrivateKey.Public]⟩
    (by simp [extractClaimsFromToken, uid_survives u.ID hid])]
  have h1 : ¬ unix now < unix t0 := by omega
  by_cases h : unix now < unix (t0 + cfg.AccessTTL)
  · have h2 : ¬ unix (t0 + cfg.AccessTTL) ≤ unix now := by omega
    simp [jwx.validate, hcfg, h, h1, h2]
  · have h2 : unix (t0 + cfg.AccessTTL) ≤ unix now := by omega
    simp [jwx.validate, hcfg, h, h1, h2]

/-- Round trip for user ids below `2 ^ 53`: the token either service issues
validates at once, with that service, to the user's id, email and role, given
an access TTL that is positive (`hmacService`) or at least a second
(`rsaService`, which reads the clock to the second and has no leeway). -/
theorem round_trip_small_ids (hs : hmacService) (cfg : Config) (priv : RSAPrivateKey)
    (rs : rsaService) (t0 : Int) (u : User)
    (hnew : NewRSAService cfg (some priv) (some priv.Public) = .ok rs)
    (hid : u.ID < 2 ^ 53) (hh : 0 < hs.cfg.AccessTTL) (hr : Second ≤ cfg.AccessTTL) :
    (hs.GenerateAccessToken t0 u).bind (hs.ValidateAccessToken t0)
      = .ok { UserID := u.ID, Email := u.Email, Role := u.Role }
    ∧ (rs.GenerateAccessToken t0 u).bind (rs.ValidateAccessToken t0)
      = .ok { UserID := u.ID, Email := u.Email, Role := u.Role } := by
  constructor
  · rw [hmac_issue_then_validate hs t0 t0 u hid, if_pos]
    right
    simp only [ofUnix, Second, unix]
    omega
  · rw [rsa_issue_then_validate cfg priv rs t0 t0 u hnew hid le_rfl, if_pos]
    simp only [Second, unix] at *
    omega

/-- C1 (code defect).  The round trip `validate (issue u) = u` fails for a
user id above `2 ^ 53`: the token issued for the user with id
`9007199254740993` validates, immediately and with the same service, to
claims with `UserID = 9007199254740992`, in `hmacService` and in `rsaService`
alike, because the id travels as a JSON number and is read back as a
`float64`. -/
theorem C1_round_trip_loses_large_user_id :
    (sampleHMAC.GenerateAccessToken sampleNow largeIdUser).bind
        (sampleHMAC.ValidateAccessToken sampleNow)
      = .ok { UserID := 9007199254740992, Email := "a@b.com", Role := "user" }
    ∧ (NewRSAService sampleConfig (some samplePriv) (some samplePriv.Public)).bind
        (fun s => (s.GenerateAccessToken sampleNow largeIdUser).bind
          (s.ValidateAccessToken sampleNow))
      = .ok { UserID := 9007199254740992, Email := "a@b.com", Role := "user" }
    ∧ largeIdUser.ID < 2 ^ 64
    ∧ largeIdUser.ID ≠ 9007199254740992 := by
  decide

/-- C2 (code defect).  After a key-lookup failure `Verify` parses the token a
second time without the issuer and audience options: a verifier configured
with issuer `digital-bank` and audience `bank-api`, holding only `kid-2024`,
returns claims for a token of issuer `someone-else` and audience `elsewhere`
signed under `kid-2025` once the refetch delivers that key.  The first parse
does check both: with `kid-2025` already cached the same token is refused. -/
theorem C2_retry_parse_drops_issuer_and_audience :
    (sampleVerifier.Verify (.ok [sampleKey1, sampleKey2]) sampleNow sampleNow
        (.compact foreignToken)).result
      = .ok { UserID := 7, Email := "eve@x.org", Role := "admin" }
    ∧ sampleVerifier.issuer ≠ ""
    ∧ sampleVerifier.audience ≠ ""
    ∧ foreignToken.payload.iss ≠ some sampleVerifier.issuer
    ∧ sampleVerifier.audience ∉ foreignToken.payload.aud
    ∧ ({ sampleVerifier with keySet := [sampleKey1, sampleKey2] }.Verify
        (.ok [sampleKey1, sampleKey2]) sampleNow sampleNow (.compact foreignToken)).result
      = .error .ErrUnauthorized := by
  decide

/-- C3 (counterexample).  Both issuer-side services, configured with issuer
`digital-bank` and audience `bank-api`, return claims for a correctly signed,
unexpired token whose `iss` is `someone-else` and whose `aud` is
`elsewhere`. -/
theorem C3_foreign_issuer_accepted :
    sampleHMAC.cfg.Issuer = "digital-bank" ∧ sampleHMAC.cfg.Audience = "bank-api"
    ∧ sampleHMAC.ValidateAccessToken sampleNow (.compact (hmacSigned "HS256" foreignPayload))
      = .ok { UserID := 7, Email := "eve@x.org", Role := "admin" }
    ∧ NewRSAService sampleConfig (some samplePriv) (some samplePriv.Public) = .ok sampleRSA
    ∧ sampleRSA.ValidateAccessToken sampleNow (.compact (rsaSigned 1 "kid-2024" foreignPayload))
      = .ok { UserID := 7, Email := "eve@x.org", Role := "admin" }
    ∧ foreignPayload.iss ≠ some "digital-bank"
    ∧ "bank-api" ∉ foreignPayload.aud := by
  decide

/-- C3 (amended).  The issuer-side services do not compare the token's `iss`
and `aud` with the configured `Issuer` and `Audience`: every token that is
correctly signed for the service and whose time claims hold is accepted,
whatever its `iss` and `aud`, and the claims returned are those its payload
decodes to. -/
theorem C3_issuer_side_ignores_iss_and_aud
    (hs : hmacService) (cfg : Config) (priv : RSAPrivateKey) (pub : RSAPublicKey)
    (rs : rsaService) (now : Int) (th tr : Token)
    (hnew : NewRSAService cfg (some priv) (some pub) = .ok rs)
    (hsh : SignedByHMAC hs.cfg.AccessSecret th) (hth : th.payload.validAt now)
    (hsr : SignedByRSA rs tr) (htr : tr.payload.validAt now) :
    (∃ c, extractClaimsFromToken th.payload = .ok c
        ∧ hs.ValidateAccessToken now (.compact th) = .ok c)
    ∧ (∃ c, extractClaimsFromToken tr.payload = .ok c
        ∧ rs.ValidateAccessToken now (.compact tr) = .ok c) := by
  obtain ⟨ch, hch⟩ := extractClaims_ok th.payload
  obtain ⟨cr, hcr⟩ := extractClaims_ok tr.payload
  refine ⟨⟨ch, hch, ?_⟩, ⟨cr, hcr, ?_⟩⟩
  · have hv : golangjwt.validate (5 * Second) now th.payload = [] := by
      apply gj_validate_nil
      · intro e he
        have := hth.2.1 e he
        simp only [ofUnix, Second, unix] at *
        omega
      · intro n hn
        have := hth.2.2 n hn
        simp only [ofUnix, Second, unix] at *
        omega
    rw [hmac_validate_signed hs now th ch hsh hch, if_pos hv]
  · rw [rsa_validate_signed cfg priv pub rs now tr cr hnew hsr hcr,
      jwx_validate_ok [rs.jwkKey] now tr.payload htr]

/-- C3 (witness): the amended statement at the foreign payload, signed for the
sample HMAC service and for the sample RSA service. -/
theorem C3_issuer_side_ignores_iss_and_aud_witness :
    (∃ c, extractClaimsFromToken foreignPayload = .ok c
        ∧ sampleHMAC.ValidateAccessToken sampleNow
            (.compact (hmacSigned "HS256" foreignPayload)) = .ok c)
    ∧ (∃ c, extractClaimsFromToken foreignPayload = .ok c
        ∧ sampleRSA.ValidateAccessToken sampleNow
            (.compact (rsaSigned 1 "kid-2024" foreignPayload)) = .ok c) :=
  C3_issuer_side_ignores_iss_and_aud sampleHMAC sampleConfig samplePriv samplePriv.Public
    sampleRSA sampleNow (hmacSigned "HS256" foreignPayload)
    (rsaSigned 1 "kid-2024" foreignPayload)
    (by decide) (by decide) (by decide) (by decide) (by decide)

/-- C4 (counterexample).  A token whose header declares HS384, or HS512,
and whose signature is correct for that algorithm under the configured secret
is accepted by `hmacService.ValidateAccessToken`, which signs with HS256. -/
theorem C4_hs384_and_hs512_accepted :
    sampleHMAC.ValidateAccessToken sampleNow (.compact (hmacSigned "HS384" ownPayload))
      = .ok { UserID := 42, Email := "a@b.com", Role := "user" }
    ∧ sampleHMAC.ValidateAccessToken sampleNow (.compact (hmacSigned "HS512" ownPayload))
      = .ok { UserID := 42, Email := "a@b.com", Role := "user" } := by
  decide

/-- C4 (amended).  Algorithms outside the HMAC family are rejected: for every
token `t` whose header declares an algorithm other than HS256, HS384 and
HS512, `ValidateAccessToken` returns `ErrInvalidToken`, whatever the signature
is.  Within the family the declared algorithm is the one verified: a token `u`
signed with the secret under the HMAC algorithm its header declares, with time
claims that hold, is accepted. -/
theorem C4_only_non_hmac_algorithms_rejected
    (s : hmacService) (now : Int) (t u : Token)
    (halg : t.header.alg ∉ ["HS256", "HS384", "HS512"])
    (hsig : SignedByHMAC s.cfg.AccessSecret u) (htime : u.payload.validAt now) :
    s.ValidateAccessToken now (.compact t) = .error .ErrInvalidToken
    ∧ ∃ c, extractClaimsFromToken u.payload = .ok c
        ∧ s.ValidateAccessToken now (.compact u) = .ok c := by
  refine ⟨hmac_validate_unsigned s now t (fun h => halg h.1), ?_⟩
  obtain ⟨c, hc⟩ := extractClaims_ok u.payload
  refine ⟨c, hc, ?_⟩
  have hv : golangjwt.validate (5 * Second) now u.payload = [] := by
    apply gj_validate_nil
    · intro e he
      have := htime.2.1 e he
      simp only [ofUnix, Second, unix] at *
      omega
    · intro n hn
      have := htime.2.2 n hn
      simp only [ofUnix, Second, unix] at *
      omega
  rw [hmac_validate_signed s now u c hsig hc, if_pos hv]

/-- C4 (witness): a token declaring RS256 that carries the HS256 MAC of the
secret is rejected; the HS512 token of the counterexample is accepted. -/
theorem C4_only_non_hmac_algorithms_rejected_witness :
    sampleHMAC.ValidateAccessToken sampleNow
        (.compact { header := { alg := "RS256", kid := none }, payload := ownPayload,
                    sig := (hmacSigned "HS256" ownPayload).sig })
      = .error .ErrInvalidToken
    ∧ ∃ c, extractClaimsFromToken ownPayload = .ok c
        ∧ sampleHMAC.ValidateAccessToken sampleNow
            (.compact (hmacSigned "HS512" ownPayload)) = .ok c :=
  C4_only_non_hmac_algorithms_rejected sampleHMAC sampleNow
    { header := { alg := "RS256", kid := none }, payload := ownPayload,
      sig := (hmacSigned "HS256" ownPayload).sig }
    (hmacSigned "HS512" ownPayload) (by decide) (by decide) (by decide)

/-- C6.  A failed refresh keeps the last good key set: when its fetch fails,
`fetchOnce` returns the error and leaves the verifier, hence the set `getSet`
reads, as it was; when its fetch succeeds with a set, `getSet` reads that set
afterwards.  An iteration of `refreshLoop` changes the cached set only by such
a successful fetch, and so does any run of the loop. -/
theorem C6_failed_refresh_keeps_last_good_set
    (r : remoteVerifier) (err : String) (set' : jwx.Set) (ev : LoopEvent)
    (evs : List LoopEvent) :
    r.fetchOnce (.error err) = (some err, r)
    ∧ (r.fetchOnce (.error err)).2.getSet = r.getSet
    ∧ (r.fetchOnce (.ok set')).1 = none
    ∧ (r.fetchOnce (.ok set')).2.getSet = set'
    ∧ ((r.refreshStep ev).1.getSet = r.getSet
        ∨ ∃ s, ev = .tick (.ok s) ∧ (r.refreshStep ev).1.getSet = s)
    ∧ ((r.refreshLoop evs).getSet = r.getSet
        ∨ ∃ s, .tick (.ok s) ∈ evs ∧ (r.refreshLoop evs).getSet = s) := by
  refine ⟨rfl, rfl, rfl, rfl, ?_, ?_⟩
  · cases ev with
    | quit => exact Or.inl rfl
    | tick fetched =>
      cases fetched with
      | error e => exact Or.inl rfl
      | ok s => exact Or.inr ⟨s, rfl, rfl⟩
  · induction evs generalizing r with
    | nil => exact Or.inl rfl
    | cons ev rest ih =>
      cases ev with
      | quit => exact Or.inl rfl
      | tick fetched =>
        cases fetched with
        | error e =>
          rcases ih r with h | ⟨s, hs, hget⟩
          · exact Or.inl h
          · exact Or.inr ⟨s, List.mem_cons_of_mem _ hs, hget⟩
        | ok s0 =>
          rcases ih { r with keySet := s0 } with h | ⟨s, hs, hget⟩
          · exact Or.inr ⟨s0, List.mem_cons_self _ _, h⟩
          · exact Or.inr ⟨s, List.mem_cons_of_mem _ hs, hget⟩

/-- C7.  `Verify` returns `ErrUnauthorized`, and no claims, for every token
string when the cached set is empty, and for every token string (malformed
ones included) whose declared key id is neither in the cached set nor in the
set a successful refetch returns; the refetch may also fail.  `Verify` is a
total function, it performs at most one fetch, and when the refetch fails the
verifier, with its cached set, is left as it was. -/
theorem C7_unknown_key_is_unauthorized
    (r : remoteVerifier) (fetched : FetchResult) (now later : Int) (tokenStr : TokenStr)
    (h : r.getSet = [] ∨
      ∀ t kid, tokenStr = .compact t → t.header.kid = some kid →
        jwx.LookupKeyID r.getSet kid = none
          ∧ ∀ set', fetched = .ok set' → jwx.LookupKeyID set' kid = none) :
    (r.Verify fetched now later tokenStr).result = .error .ErrUnauthorized
    ∧ (r.Verify fetched now later tokenStr).fetches ≤ 1
    ∧ ∀ err, fetched = .error err → (r.Verify fetched now later tokenStr).after = r := by
  rw [verify_paths]
  by_cases hset : r.getSet = []
  · simp [hset]
  · simp only [hset, if_false]
    rcases h with h | h
    · exact absurd h hset
    · cases tokenStr with
      | malformed raw =>
        have hm : (stringsContains jwx.ParseError.malformed.Error "no key"
            || stringsContains jwx.ParseError.malformed.Error "kid") = false := by decide
        simp [jwx.Parse, hm]
      | compact t =>
        have hfirst : jwx.Parse (r.opts r.getSet) now (.compact t)
            = .error (.keyLookup t.header.kid) := by
          apply jwx_parse_verify_error
          apply jwx_verify_keyLookup
          intro k hk
          exact (h t k rfl hk).1
        have hsecond : jwx.Parse ⟨(r.fetchOnce fetched).2.getSet, none, none⟩ later (.compact t)
            = .error (.keyLookup t.header.kid) := by
          apply jwx_parse_verify_error
          apply jwx_verify_keyLookup
          intro k hk
          cases fetched with
          | error e => exact (h t k rfl hk).1
          | ok s => exact (h t k rfl hk).2 s rfl
        simp only [hfirst, hsecond]
        by_cases hm : (stringsContains (jwx.ParseError.keyLookup t.header.kid).Error "no key"
            || stringsContains (jwx.ParseError.keyLookup t.header.kid).Error "kid") = true
        · simp only [hm, if_true]
          refine ⟨by simp, by simp, ?_⟩
          intro err herr
          subst herr
          simp [remoteVerifier.fetchOnce]
        · simp only [hm, if_false]
          simp

/-- C7 (witness): the sample verifier meets a token of `kid-2025` while the
refetch times out. -/
theorem C7_unknown_key_is_unauthorized_witness :
    (sampleVerifier.Verify (.error "timeout") sampleNow sampleNow
        (.compact foreignToken)).result = .error .ErrUnauthorized
    ∧ (sampleVerifier.Verify (.error "timeout") sampleNow sampleNow
        (.compact foreignToken)).fetches ≤ 1
    ∧ ∀ err, (Except.error "timeout" : FetchResult) = .error err →
        (sampleVerifier.Verify (.error "timeout") sampleNow sampleNow
          (.compact foreignToken)).after = sampleVerifier :=
  C7_unknown_key_is_unauthorized sampleVerifier (.error "timeout") sampleNow sampleNow
    (.compact foreignToken)
    (Or.inr (by
      intro t kid ht hk
      cases ht
      cases hk
      exact ⟨by decide, by intro s hs; cases hs⟩))

/-- C8 (counterexample).  Two tokens, correctly signed, whose `exp` lies more
than 5 seconds before the validation time and which do not get the expired
error.  A token with `exp` 0, signed with the HMAC secret, is accepted by
`hmacService.ValidateAccessToken`, claims and all: the library reads the date
`0` as no expiry.  A token signed for the RSA service whose `exp` lies hours
before the validation time, but whose `iat` lies after it, gets the invalid
error from `rsaService.ValidateAccessToken`: the library reports the first time
check that fails, and `iat` comes before `exp`.  (`hmacService` reports the
latter payload as expired.) -/
theorem C8_stale_tokens_without_expired_error :
    SignedByHMAC sampleHMAC.cfg.AccessSecret (hmacSigned "HS256" zeroExpPayload)
    ∧ zeroExpPayload.exp = some 0
    ∧ ofUnix 0 + 5 * Second < sampleNow
    ∧ sampleHMAC.ValidateAccessToken sampleNow (.compact (hmacSigned "HS256" zeroExpPayload))
      = .ok { UserID := 42, Email := "a@b.com", Role := "user" }
    ∧ SignedByRSA sampleRSA (rsaSigned 1 "kid-2024" postdatedStalePayload)
    ∧ postdatedStalePayload.exp = some 1699990000
    ∧ ofUnix 1699990000 + 5 * Second < sampleNow
    ∧ sampleRSA.ValidateAccessToken sampleNow
        (.compact (rsaSigned 1 "kid-2024" postdatedStalePayload)) = .error "invalid token"
    ∧ sampleHMAC.ValidateAccessToken sampleNow
        (.compact (hmacSigned "HS256" postdatedStalePayload)) = .error .ErrExpiredToken := by
  decide

/-- C8 (amended).  A token that is correctly signed for the service and whose
`exp` is not the date `0` and lies more than 5 seconds before the validation
time gets the expired error (`ErrExpiredToken` from `hmacService`;
`token expired` from `rsaService`, there provided its `iat` is not after the
validation time).  A malformed token string, and a token whose signature does
not verify for the service (for `hmacService`: it is not the MAC of the secret
under the HMAC algorithm the header names; for `rsaService`: the header does
not name the service's key id, or the signature is not the RS256 signature of
the service's key), gets the invalid error (`ErrInvalidToken`,
`invalid token`).  The expired and the invalid error differ. -/
theorem C8_expired_is_told_from_invalid
    (hs : hmacService) (cfg : Config) (priv : RSAPrivateKey) (pub : RSAPublicKey)
    (rs : rsaService) (now : Int) (th tr : Token) (eh er : Int)
    (hnew : NewRSAService cfg (some priv) (some pub) = .ok rs)
    (hsh : SignedByHMAC hs.cfg.AccessSecret th)
    (heh : th.payload.exp = some eh) (hneh : eh ≠ 0) (hpasth : ofUnix eh + 5 * Second < now)
    (hsr : SignedByRSA rs tr)
    (her : tr.payload.exp = some er) (_hner : er ≠ 0) (hpastr : ofUnix er + 5 * Second < now)
    (hiat : ∀ i ∈ tr.payload.iat, i ≤ unix now) :
    hs.ValidateAccessToken now (.compact th) = .error .ErrExpiredToken
    ∧ rs.ValidateAccessToken now (.compact tr) = .error "token expired"
    ∧ (∀ raw, hs.ValidateAccessToken now (.malformed raw) = .error .ErrInvalidToken
        ∧ rs.ValidateAccessToken now (.malformed raw) = .error "invalid token")
    ∧ (∀ t, ¬ SignedByHMAC hs.cfg.AccessSecret t →
        hs.ValidateAccessToken now (.compact t) = .error .ErrInvalidToken)
    ∧ (∀ t, ¬ SignedByRSA rs t →
        rs.ValidateAccessToken now (.compact t) = .error "invalid token")
    ∧ JwtError.ErrExpiredToken ≠ JwtError.ErrInvalidToken
    ∧ ("token expired" : String) ≠ "invalid token" := by
  refine ⟨?_, ?_, ?_, ?_, ?_, by decide, by decide⟩
  · obtain ⟨c, hc⟩ := extractClaims_ok th.payload
    obtain ⟨hmem, hne⟩ :=
      gj_validate_expired (5 * Second) now th.payload eh heh hneh (le_of_lt hpasth)
    rw [hmac_validate_signed hs now th c hsh hc, if_neg hne, if_pos hmem]
  · obtain ⟨c, hc⟩ := extractClaims_ok tr.payload
    have hle : er ≤ unix now := by
      simp only [ofUnix, Second, unix] at *
      omega
    rw [rsa_validate_signed cfg priv pub rs now tr c hnew hsr hc,
      jwx_validate_expired _ now tr.payload er hiat her hle]
    simp
  · intro raw
    exact ⟨rfl, rfl⟩
  · intro t ht
    exact hmac_validate_unsigned hs now t ht
  · intro t ht
    exact rsa_validate_unsigned cfg priv pub rs now t hnew ht

/-- C8 (witness): the stale payload, signed for either sample service. -/
theorem C8_expired_is_told_from_invalid_witness :
    sampleHMAC.ValidateAccessToken sampleNow (.compact (hmacSigned "HS256" stalePayload))
      = .error .ErrExpiredToken
    ∧ sampleRSA.ValidateAccessToken sampleNow (.compact (rsaSigned 1 "kid-2024" stalePayload))
      = .error "token expired"
    ∧ (∀ raw, sampleHMAC.ValidateAccessToken sampleNow (.malformed raw) = .error .ErrInvalidToken
        ∧ sampleRSA.ValidateAccessToken sampleNow (.malformed raw) = .error "invalid token")
    ∧ (∀ t, ¬ SignedByHMAC sampleHMAC.cfg.AccessSecret t →
        sampleHMAC.ValidateAccessToken sampleNow (.compact t) = .error .ErrInvalidToken)
    ∧ (∀ t, ¬ SignedByRSA sampleRSA t →
        sampleRSA.ValidateAccessToken sampleNow (.compact t) = .error "invalid token")
    ∧ JwtError.ErrExpiredToken ≠ JwtError.ErrInvalidToken
    ∧ ("token expired" : String) ≠ "invalid token" :=
  C8_expired_is_told_from_invalid sampleHMAC sampleConfig samplePriv samplePriv.Public sampleRSA
    sampleNow (hmacSigned "HS256" stalePayload) (rsaSigned 1 "kid-2024" stalePayload)
    1699990000 1699990000 (by decide) (by decide) rfl (by decide) (by decide) (by decide) rfl
    (by decide) (by decide) (by decide)

/-- C9 (code defect).  `rsaService.ValidateAccessToken` applies no leeway: the
token the sample service issues at `sampleNow` (its `exp` is 1700000900) is
accepted one nanosecond before `exp` and gets `token expired` at `exp` itself
and 4 seconds later, while `hmacService`, which passes the 5 second leeway,
accepts its own token at `exp` and up to one nanosecond before `exp + 5 s`. -/
theorem C9_rsa_service_has_no_leeway :
    (sampleRSA.GenerateAccessToken sampleNow sampleUser).bind
        (sampleRSA.ValidateAccessToken (ofUnix 1700000900 - 1))
      = .ok { UserID := 42, Email := "a@b.com", Role := "user" }
    ∧ (sampleRSA.GenerateAccessToken sampleNow sampleUser).bind
        (sampleRSA.ValidateAccessToken (ofUnix 1700000900))
      = .error "token expired"
    ∧ (sampleRSA.GenerateAccessToken sampleNow sampleUser).bind
        (sampleRSA.ValidateAccessToken (ofUnix 1700000900 + 4 * Second))
      = .error "token expired"
    ∧ (sampleHMAC.GenerateAccessToken sampleNow sampleUser).bind
        (sampleHMAC.ValidateAccessToken (ofUnix 1700000900))
      = .ok { UserID := 42, Email := "a@b.com", Role := "user" }
    ∧ (sampleHMAC.GenerateAccessToken sampleNow sampleUser).bind
        (sampleHMAC.ValidateAccessToken (ofUnix 1700000900 + 5 * Second - 1))
      = .ok { UserID := 42, Email := "a@b.com", Role := "user" } := by
  decide

/-- C10 (counterexample).  With `AccessTTL` of one second, `hmacService` still
returns the claims, not the expired error, when the token issued at `sampleNow`
is validated 2 seconds later: the 5 second leeway has not run out. -/
theorem C10_hmac_token_still_valid_after_two_seconds :
    oneSecondHMAC.cfg.AccessTTL = Second
    ∧ (oneSecondHMAC.GenerateAccessToken sampleNow sampleUser).bind
        (oneSecondHMAC.ValidateAccessToken (sampleNow + 2 * Second))
      = .ok { UserID := 42, Email := "a@b.com", Role := "user" } := by
  decide

/-- C10 (amended).  For a service with `AccessTTL` of one second, the token
issued at `t0` for the user 42, `a@b.com`, `user` validates at `t0` with these
claims, in both services; validated at `t0 + 6 s`, beyond the leeway, it gets
the expired error in both (in `hmacService` for a clock `t0` not before 1970:
in the second before, the token's `exp` is the date `0`, which is read as no
expiry); validated at `t0 + 2 s`, `hmacService` still returns the claims. -/
theorem C10_one_second_ttl_scenario
    (hs : hmacService) (cfg : Config) (priv : RSAPrivateKey) (rs : rsaService) (t0 : Int)
    (hnew : NewRSAService cfg (some priv) (some priv.Public) = .ok rs)
    (httl : hs.cfg.AccessTTL = Second) (httl' : cfg.AccessTTL = Second) :
    (hs.GenerateAccessToken t0 { ID := 42, Email := "a@b.com", Role := "user" }).bind
        (hs.ValidateAccessToken t0)
      = .ok { UserID := 42, Email := "a@b.com", Role := "user" }
    ∧ (rs.GenerateAccessToken t0 { ID := 42, Email := "a@b.com", Role := "user" }).bind
        (rs.ValidateAccessToken t0)
      = .ok { UserID := 42, Email := "a@b.com", Role := "user" }
    ∧ (hs.GenerateAccessToken t0 { ID := 42, Email := "a@b.com", Role := "user" }).bind
        (hs.ValidateAccessToken (t0 + 2 * Second))
      = .ok { UserID := 42, Email := "a@b.com", Role := "user" }
    ∧ (0 ≤ t0 →
        (hs.GenerateAccessToken t0 { ID := 42, Email := "a@b.com", Role := "user" }).bind
          (hs.ValidateAccessToken (t0 + 6 * Second))
        = .error .ErrExpiredToken)
    ∧ (rs.GenerateAccessToken t0 { ID := 42, Email := "a@b.com", Role := "user" }).bind
        (rs.ValidateAccessToken (t0 + 6 * Second))
      = .error "token expired" := by
  have hid : ({ ID := 42, Email := "a@b.com", Role := "user" } : User).ID < 2 ^ 53 := by
    norm_num
  refine ⟨?_, ?_, ?_, ?_, ?_⟩
  · rw [hmac_issue_then_validate hs t0 t0 _ hid, httl, if_pos]
    right
    simp only [ofUnix, Second, unix]
    omega
  · rw [rsa_issue_then_validate cfg priv rs t0 t0 _ hnew hid le_rfl, httl', if_pos]
    simp only [Second, unix]
    omega
  · rw [hmac_issue_then_validate hs t0 (t0 + 2 * Second) _ hid, httl, if_pos]
    right
    simp only [ofUnix, Second, unix]
    omega
  · intro hclock
    rw [hmac_issue_then_validate hs t0 (t0 + 6 * Second) _ hid, httl, if_neg]
    simp only [ofUnix, Second, unix]
    omega
  · rw [rsa_issue_then_validate cfg priv rs t0 (t0 + 6 * Second) _ hnew hid, httl', if_neg]
    · simp only [Second, unix]
      omega
    · simp only [Second, unix]
      omega

/-- C10 (witness): the scenario at `sampleNow`. -/
theorem C10_one_second_ttl_scenario_witness :
    (oneSecondHMAC.GenerateAccessToken sampleNow
          { ID := 42, Email := "a@b.com", Role := "user" }).bind
        (oneSecondHMAC.ValidateAccessToken sampleNow)
      = .ok { UserID := 42, Email := "a@b.com", Role := "user" }
    ∧ ({ sampleRSA with cfg := { sampleConfig with AccessTTL := Second } }.GenerateAccessToken
          sampleNow { ID := 42, Email := "a@b.com", Role := "user" }).bind
        ({ sampleRSA with cfg := { sampleConfig with AccessTTL := Second } }.ValidateAccessToken
          sampleNow)
      = .ok { UserID := 42, Email := "a@b.com", Role := "user" }
    ∧ (oneSecondHMAC.GenerateAccessToken sampleNow
          { ID := 42, Email := "a@b.com", Role := "user" }).bind
        (oneSecondHMAC.ValidateAccessToken (sampleNow + 2 * Second))
      = .ok { UserID := 42, Email := "a@b.com", Role := "user" }
    ∧ (oneSecondHMAC.GenerateAccessToken sampleNow
          { ID := 42, Email := "a@b.com", Role := "user" }).bind
        (oneSecondHMAC.ValidateAccessToken (sampleNow + 6 * Second))
      = .error .ErrExpiredToken
    ∧ ({ sampleRSA with cfg := { sampleConfig with AccessTTL := Second } }.GenerateAccessToken
          sampleNow { ID := 42, Email := "a@b.com", Role := "user" }).bind
        ({ sampleRSA with cfg := { sampleConfig with AccessTTL := Second } }.ValidateAccessToken
          (sampleNow + 6 * Second))
      = .error "token expired" :=
  have h := C10_one_second_ttl_scenario oneSecondHMAC { sampleConfig with AccessTTL := Second }
    samplePriv { sampleRSA with cfg := { sampleConfig with AccessTTL := Second } } sampleNow
    (by decide) (by decide) (by decide)
  ⟨h.1, h.2.1, h.2.2.1, h.2.2.2.1 (by decide), h.2.2.2.2⟩

/-- C11 (counterexample).  For a token of the cached key `kid-2024` whose
signature verifies and whose `exp` lies hours in the past, `Verify` returns
`ErrExpired`, which is not the `ErrUnauthorized` it returns for the same
payload under a signature that does not verify or under an unknown key id. -/
theorem C11_expired_token_is_not_unauthorized :
    VerifyError.ErrExpired ≠ VerifyError.ErrUnauthorized
    ∧ (sampleVerifier.Verify (.error "timeout") sampleNow sampleNow
        (.compact (rsaSigned 1 "kid-2024" stalePayload))).result = .error .ErrExpired
    ∧ (sampleVerifier.Verify (.error "timeout") sampleNow sampleNow
        (.compact { rsaSigned 1 "kid-2024" stalePayload with sig := Sig.raw [0] })).result
      = .error .ErrUnauthorized
    ∧ (sampleVerifier.Verify (.error "timeout") sampleNow sampleNow
        (.compact (rsaSigned 1 "kid-2023" stalePayload))).result
      = .error .ErrUnauthorized := by
  decide

/-- C11 (amended).  For every token whose key id is in the cached set, whose
signature verifies under that key, which is not dated in the future and whose
`exp` is not after the second of the clock, `Verify` returns `ErrExpired` and
no claims, without fetching and without touching the cache; `ErrExpired` is a
different error from `ErrUnauthorized`. -/
theorem C11_expired_token_gets_ErrExpired
    (r : remoteVerifier) (fetched : FetchResult) (now later : Int) (t : Token) (e : Int)
    (hver : VerifiesUnder r.getSet t)
    (hexp : t.payload.exp = some e) (hpast : e ≤ unix now)
    (hiat : ∀ i ∈ t.payload.iat, i ≤ unix now) :
    r.Verify fetched now later (.compact t)
      = { result := .error .ErrExpired, after := r, fetches := 0 }
    ∧ VerifyError.ErrExpired ≠ VerifyError.ErrUnauthorized := by
  refine ⟨?_, by decide⟩
  have hset : r.getSet ≠ [] := by
    obtain ⟨kid, key, alg, _, hl, _⟩ := hver
    intro h
    rw [h] at hl
    simp [jwx.LookupKeyID] at hl
  have hparse : jwx.Parse (r.opts r.getSet) now (.compact t) = .error .expired := by
    have hv : jwx.verify (r.opts r.getSet).keySet t = .ok () := jwx_verify_ok r.getSet t hver
    simp only [jwx.Parse, hv, jwx_validate_expired (r.opts r.getSet) now t.payload e hiat hexp hpast]
  rw [verify_paths]
  simp only [hset, if_false, hparse, if_true]

/-- C11 (witness): the stale payload, signed under the cached key of the
sample verifier. -/
theorem C11_expired_token_gets_ErrExpired_witness :
    sampleVerifier.Verify (.error "timeout") sampleNow sampleNow
        (.compact (rsaSigned 1 "kid-2024" stalePayload))
      = { result := .error .ErrExpired, after := sampleVerifier, fetches := 0 }
    ∧ VerifyError.ErrExpired ≠ VerifyError.ErrUnauthorized :=
  C11_expired_token_gets_ErrExpired sampleVerifier (.error "timeout") sampleNow sampleNow
    (rsaSigned 1 "kid-2024" stalePayload) 1699990000
    ⟨"kid-2024", sampleKey1, "RS256", rfl, by decide, by decide, by decide, by decide⟩
    rfl (by decide) (by decide)

/-- C12 (code defect).  Claim decoding substitutes zero values instead of
failing: a correctly signed, unexpired token without `uid`, `email` and `role`
validates to `Claims{UserID: 0, Email: "", Role: ""}` in `hmacService`, in
`rsaService` and through `extractClaimsFromToken` in `Verify`, and so does a
token whose `uid` is a string, whose `email` is a number and whose `role` is a
boolean. -/
theorem C12_missing_claims_default_to_zero :
    sampleHMAC.ValidateAccessToken sampleNow (.compact (hmacSigned "HS256" anonymousPayload))
      = .ok { UserID := 0, Email := "", Role := "" }
    ∧ sampleHMAC.ValidateAccessToken sampleNow (.compact (hmacSigned "HS256" mistypedPayload))
      = .ok { UserID := 0, Email := "", Role := "" }
    ∧ sampleRSA.ValidateAccessToken sampleNow
        (.compact (rsaSigned 1 "kid-2024" anonymousPayload))
      = .ok { UserID := 0, Email := "", Role := "" }
    ∧ sampleRSA.ValidateAccessToken sampleNow
        (.compact (rsaSigned 1 "kid-2024" mistypedPayload))
      = .ok { UserID := 0, Email := "", Role := "" }
    ∧ extractClaimsFromToken anonymousPayload = .ok { UserID := 0, Email := "", Role := "" }
    ∧ extractClaimsFromToken mistypedPayload = .ok { UserID := 0, Email := "", Role := "" }
    ∧ (sampleVerifier.Verify (.error "timeout") sampleNow sampleNow
        (.compact (rsaSigned 1 "kid-2024" anonymousPayload))).result
      = .ok { UserID := 0, Email := "", Role := "" } := by
  decide

/-- C17.  `NewRSAService` returns no service when the private key is nil, the
public key is nil, or `cfg.KeyID` is empty.  For every service it returns,
`JWKS` returns, without error, a set of exactly one entry: the entry holds the
public key handed to `NewRSAService` (an entry has no field for private
material), its key id is `cfg.KeyID`, which is not empty, its algorithm is
RS256 and its usage is `sig`; the entry is the service's `jwkKey`, so every
call returns the same one. -/
theorem C17_jwks_publishes_the_one_public_key
    (cfg : Config) (priv : Option RSAPrivateKey) (pub : Option RSAPublicKey) :
    (priv = none ∨ pub = none ∨ cfg.KeyID = "" →
        ∃ err, NewRSAService cfg priv pub = .error err)
    ∧ ∀ s, NewRSAService cfg priv pub = .ok s →
        ∃ k p, s.JWKS = .ok [k] ∧ k = s.jwkKey ∧ pub = some p ∧ k.pub = p
          ∧ k.kid = some cfg.KeyID ∧ cfg.KeyID ≠ ""
          ∧ k.alg = some "RS256" ∧ k.usage = some "sig" := by
  constructor
  · intro h
    cases priv with
    | none => exact ⟨_, rfl⟩
    | some sk =>
      cases pub with
      | none => exact ⟨_, rfl⟩
      | some pk =>
        rcases h with h | h | h
        · cases h
        · cases h
        · exact ⟨"cfg.KeyID required", by simp [NewRSAService, h]⟩
  · intro s hs
    cases priv with
    | none => simp [NewRSAService] at hs
    | some sk =>
      cases pub with
      | none => simp [NewRSAService] at hs
      | some pk =>
        obtain ⟨hk, hrs⟩ := rsa_new_ok cfg sk pk s hs
        subst hrs
        exact ⟨_, pk, rfl, rfl, rfl, rfl, rfl, hk, rfl, rfl⟩

/-! ## Lemmas on coded errors -/

/-- Whatever the wrapped error is, `Wrap` builds the coded error with the given
code and message around it. -/
theorem wrap_eq (err : errs.Error) (c : errs.Code) (msg : String) :
    errs.Wrap err c msg = { CodeVal := c, Msg := msg, Err := err } := by
  unfold errs.Wrap
  by_cases h : err = []
  · simp [h, errs.New]
  · simp only [h, if_false]
    cases errs.As err with
    | none => rfl
    | some ce => simp

/-- C20.  The outermost code decides.  For every error `err` (nil, uncoded, or
a chain with coded errors of any codes), every code `c` and every message,
`Wrap err c msg` has code `c` and unwraps to `err`; `IsCode` of it holds for
`c'` exactly when `c' = c`; `mapErrToHTTP` of it returns 400 for
`bad_request`, 404 for `not_found`, 409 for `conflict`, 401 for
`unauthenticated`, each with the code itself in the body, and 500 with code
`internal_error` for every other code.  `mapErrToHTTP` of an error without a
coded error in its chain returns 500 with code `internal_error`, and the
message it returns for any error is one of five fixed strings. -/
theorem C20_outermost_code_decides (err : errs.Error) (c c' : errs.Code) (msg : String) :
    (errs.Wrap err c msg).Code = c
    ∧ (errs.Wrap err c msg).Unwrap = err
    ∧ (errs.IsCode (errs.Wrap err c msg).toError c' = true ↔ c' = c)
    ∧ (c = "bad_request" → mapErrToHTTP (errs.Wrap err c msg).toError
        = (400, { Code := "bad_request", Message := "invalid request" }))
    ∧ (c = "not_found" → mapErrToHTTP (errs.Wrap err c msg).toError
        = (404, { Code := "not_found", Message := "resource not found" }))
    ∧ (c = "conflict" → mapErrToHTTP (errs.Wrap err c msg).toError
        = (409, { Code := "conflict", Message := "conflict" }))
    ∧ (c = "unauthenticated" → mapErrToHTTP (errs.Wrap err c msg).toError
        = (401, { Code := "unauthenticated", Message := "unauthenticated" }))
    ∧ (c ∉ ["bad_request", "not_found", "conflict", "unauthenticated"] →
        mapErrToHTTP (errs.Wrap err c msg).toError
          = (500, { Code := "internal_error", Message := "internal server error" }))
    ∧ (errs.As err = none →
        mapErrToHTTP err = (500, { Code := "internal_error", Message := "internal server error" }))
    ∧ (mapErrToHTTP err).2.Message ∈ ["invalid request", "resource not found", "conflict",
        "unauthenticated", "internal server error"] := by
  have has : errs.As (errs.Wrap err c msg).toError = some { CodeVal := c, Msg := msg, Err := err } := by
    rw [wrap_eq]
    rfl
  refine ⟨?_, ?_, ?_, ?_, ?_, ?_, ?_, ?_, ?_, ?_⟩
  · rw [wrap_eq]; rfl
  · rw [wrap_eq]; rfl
  · simp only [errs.IsCode, has, decide_eq_true_eq]
    exact eq_comm
  · intro h
    subst h
    simp [mapErrToHTTP, has, errs.CodedError.Code, errs.CodeBadRequest, errs.CodeNotFound,
      errs.CodeConflict, errs.CodeUnauth]
  · intro h
    subst h
    simp [mapErrToHTTP, has, errs.CodedError.Code, errs.CodeBadRequest, errs.CodeNotFound,
      errs.CodeConflict, errs.CodeUnauth]
  · intro h
    subst h
    simp [mapErrToHTTP, has, errs.CodedError.Code, errs.CodeBadRequest, errs.CodeNotFound,
      errs.CodeConflict, errs.CodeUnauth]
  · intro h
    subst h
    simp [mapErrToHTTP, has, errs.CodedError.Code, errs.CodeBadRequest, errs.CodeNotFound,
      errs.CodeConflict, errs.CodeUnauth]
  · intro h
    simp only [List.mem_cons, List.mem_singleton, List.not_mem_nil, or_false, not_or] at h
    obtain ⟨h1, h2, h3, h4⟩ := h
    simp only [mapErrToHTTP, has, errs.CodedError.Code, errs.CodeBadRequest, errs.CodeNotFound,
      errs.CodeConflict, errs.CodeUnauth, errs.CodeInternal, h1, h2, h3, h4, if_false]
  · intro h
    simp only [mapErrToHTTP, h, errs.CodeInternal]
  · unfold mapErrToHTTP
    cases errs.As err with
    | none => simp
    | some ce =>
      simp only []
      split_ifs <;> simp

/-- Lemma: `strings.HasPrefix(s, "Bearer ")` holds exactly of the strings `"Bearer " ++ rest`. -/
theorem hasPrefix_bearer (s : String) :
    stringsHasPrefix s "Bearer " = true ↔ ∃ rest, s = "Bearer " ++ rest := by
  unfold stringsHasPrefix
  rw [List.isPrefixOf_iff_prefix]
  constructor
  · rintro ⟨t, ht⟩
    refine ⟨String.mk t, ?_⟩
    apply String.ext
    rw [String.data_append]
    exact ht.symm
  · rintro ⟨rest, rfl⟩
    exact ⟨rest.toList, (String.data_append _ _).symm⟩

/-- Lemma: `strings.TrimPrefix("Bearer " + rest, "Bearer ")` is `rest`. -/
theorem trimPrefix_bearer (rest : String) :
    stringsTrimPrefix ("Bearer " ++ rest) "Bearer " = rest := by
  have hp : stringsHasPrefix ("Bearer " ++ rest) "Bearer " = true :=
    (hasPrefix_bearer _).2 ⟨rest, rfl⟩
  unfold stringsTrimPrefix
  rw [if_pos hp]
  apply String.ext
  show (("Bearer " ++ rest).toList.drop ("Bearer ".length)) = rest.data
  have hd : ("Bearer " ++ rest).toList = "Bearer ".toList ++ rest.data := String.data_append _ _
  rw [hd]
  exact List.drop_left' rfl

/-- A value stored under a key is the one read under that key afterwards. -/
theorem getLocal_setLocal (c : Ctx) (key : String) (v : Local) :
    (c.setLocal key v).getLocal key = some v := by
  simp [Ctx.setLocal, Ctx.getLocal]

/-- Storing a value under a key leaves what is read under the other keys. -/
theorem getLocal_setLocal_of_ne (c : Ctx) (key other : String) (v : Local) (h : other ≠ key) :
    (c.setLocal key v).getLocal other = c.getLocal other := by
  have hfind : ∀ l : List (String × Local),
      (l.filter (fun kv => decide (kv.1 ≠ key))).find? (fun kv => decide (kv.1 = other))
        = l.find? (fun kv => decide (kv.1 = other)) := by
    intro l
    induction l with
    | nil => rfl
    | cons kv l ih =>
      by_cases hk : kv.1 = key
      · have hno : ¬ kv.1 = other := fun h' => h (h'.symm.trans hk)
        rw [List.filter_cons_of_neg (by simpa using hk), List.find?_cons_of_neg _ (by simpa using hno)]
        exact ih
      · rw [List.filter_cons_of_pos (by simpa using hk)]
        by_cases ho : kv.1 = other
        · rw [List.find?_cons_of_pos _ (by simpa using ho),
            List.find?_cons_of_pos _ (by simpa using ho)]
        · rw [List.find?_cons_of_neg _ (by simpa using ho),
            List.find?_cons_of_neg _ (by simpa using ho)]
          exact ih
  simp only [Ctx.setLocal, Ctx.getLocal]
  rw [List.find?_cons]
  have hne : decide (key = other) = false := by simpa using Ne.symm h
  simp only [hne]
  rw [hfind]

/-- The middleware on sample requests, with a validator that accepts the token
`good` only: no header, a header of another scheme, the good token, a bad
token, and the scheme without a token. -/
theorem middleware_examples :
    JWTMiddleware sampleValidate { Authorization := "", locals := [] }
      = { handled := .next { Authorization := "", locals := [] }, validated := [] }
    ∧ JWTMiddleware sampleValidate { Authorization := "Basic good", locals := [] }
      = { handled := .status 401 "invalid token", validated := [] }
    ∧ JWTMiddleware sampleValidate { Authorization := "Bearer good", locals := [] }
      = { handled := .next { Authorization := "Bearer good",
                             locals := [("user_claims", .claims sampleClaims)] },
          validated := ["good"] }
    ∧ GetClaims { Authorization := "Bearer good",
                  locals := [("user_claims", .claims sampleClaims)] } = some sampleClaims
    ∧ JWTMiddleware sampleValidate { Authorization := "Bearer bad", locals := [] }
      = { handled := .status 401 "invalid or expired token", validated := ["bad"] }
    ∧ JWTMiddleware sampleValidate { Authorization := "Bearer ", locals := [] }
      = { handled := .status 401 "invalid or expired token", validated := [""] }
    ∧ JWTMiddleware sampleValidate { Authorization := "bearer good", locals := [] }
      = { handled := .status 401 "invalid token", validated := [] } := by
  decide

/-- C18.  The decision table of `JWTMiddleware`, for every request and every
validator.  An empty `Authorization` header: the next handler runs on the
unchanged context and the validator is not called.  A non-empty header that
does not start with `Bearer `: the answer is 401, the next handler does not
run, the validator is not called.  A header `Bearer ` followed by `rest`: the
validator is called once, on `rest`; if it returns claims, the next handler
runs on a context that holds these claims under `user_claims`, so that
`GetClaims` returns them there, and that is otherwise the request's (same
header, same values under the other keys); if it returns an error the answer
is 401 and the next handler does not run.  Hence the next handler runs only on
a request without header or with a validated token, and, on a request that
arrived without `user_claims`, `GetClaims` in the next handler returns claims
only if the header was `Bearer ` followed by a token that validated to these
claims. -/
theorem C18_middleware_decision_table
    (validate : String → Except String Claims) (c : Ctx) :
    (c.Authorization = "" →
        JWTMiddleware validate c = { handled := .next c, validated := [] })
    ∧ (c.Authorization ≠ "" → (¬ ∃ rest, c.Authorization = "Bearer " ++ rest) →
        JWTMiddleware validate c
          = { handled := .status 401 "invalid token", validated := [] })
    ∧ (∀ rest, c.Authorization = "Bearer " ++ rest →
        (JWTMiddleware validate c).validated = [rest]
        ∧ (∀ claims, validate rest = .ok claims →
            ∃ c', (JWTMiddleware validate c).handled = .next c'
              ∧ c'.getLocal "user_claims" = some (.claims claims)
              ∧ GetClaims c' = some claims
              ∧ c'.Authorization = c.Authorization
              ∧ ∀ key, key ≠ "user_claims" → c'.getLocal key = c.getLocal key)
        ∧ (∀ e, validate rest = .error e →
            (JWTMiddleware validate c).handled = .status 401 "invalid or expired token"))
    ∧ (∀ c', (JWTMiddleware validate c).handled = .next c' →
        (c.Authorization = "" ∧ c' = c)
          ∨ ∃ rest claims, c.Authorization = "Bearer " ++ rest ∧ validate rest = .ok claims
              ∧ GetClaims c' = some claims)
    ∧ (c.getLocal "user_claims" = none →
        ∀ c' claims, (JWTMiddleware validate c).handled = .next c' →
          GetClaims c' = some claims →
          ∃ rest, c.Authorization = "Bearer " ++ rest ∧ validate rest = .ok claims) := by
  have hne : stringsHasPrefix "" "Bearer " = false := by decide
  have hbearer : ∀ rest, c.Authorization = "Bearer " ++ rest →
      (JWTMiddleware validate c).validated = [rest]
      ∧ (∀ claims, validate rest = .ok claims →
          (JWTMiddleware validate c).handled = .next (c.setLocal "user_claims" (.claims claims)))
      ∧ (∀ e, validate rest = .error e →
          (JWTMiddleware validate c).handled = .status 401 "invalid or expired token") := by
    intro rest hrest
    have hp : stringsHasPrefix c.Authorization "Bearer " = true :=
      (hasPrefix_bearer _).2 ⟨rest, hrest⟩
    have ht : stringsTrimPrefix c.Authorization "Bearer " = rest := by
      rw [hrest]
      exact trimPrefix_bearer rest
    have h : c.Authorization ≠ "" := by
      intro h0
      rw [h0, hne] at hp
      cases hp
    refine ⟨?_, ?_, ?_⟩
    · simp only [JWTMiddleware, h, hp, if_false, Bool.not_true, ht]
      cases validate rest <;> rfl
    · intro claims hv
      simp [JWTMiddleware, h, hp, ht, hv, CtxUserKey]
    · intro e hv
      simp [JWTMiddleware, h, hp, ht, hv]
  have hstored : ∀ claims, GetClaims (c.setLocal "user_claims" (.claims claims)) = some claims := by
    intro claims
    have := getLocal_setLocal c "user_claims" (.claims claims)
    simp only [GetClaims, CtxUserKey, this]
  have hnext : ∀ c', (JWTMiddleware validate c).handled = .next c' →
      (c.Authorization = "" ∧ c' = c)
        ∨ ∃ rest claims, c.Authorization = "Bearer " ++ rest ∧ validate rest = .ok claims
            ∧ c' = c.setLocal "user_claims" (.claims claims) := by
    intro c' hc'
    by_cases h : c.Authorization = ""
    · left
      simp only [JWTMiddleware, h, if_true, Handled.next.injEq] at hc'
      exact ⟨h, hc'.symm⟩
    · right
      cases hp : stringsHasPrefix c.Authorization "Bearer " with
      | false => simp [JWTMiddleware, h, hp] at hc'
      | true =>
        obtain ⟨rest, hrest⟩ := (hasPrefix_bearer _).1 hp
        obtain ⟨_, hok, herr⟩ := hbearer rest hrest
        cases hv : validate rest with
        | error e =>
          rw [herr e hv] at hc'
          cases hc'
        | ok claims =>
          rw [hok claims hv] at hc'
          simp only [Handled.next.injEq] at hc'
          exact ⟨rest, claims, hrest, hv, hc'.symm⟩
  refine ⟨?_, ?_, ?_, ?_, ?_⟩
  · intro h
    simp [JWTMiddleware, h]
  · intro h hp
    have hp' : stringsHasPrefix c.Authorization "Bearer " = false := by
      cases hq : stringsHasPrefix c.Authorization "Bearer " with
      | false => rfl
      | true => exact absurd ((hasPrefix_bearer _).1 hq) hp
    simp [JWTMiddleware, h, hp']
  · intro rest hrest
    obtain ⟨hval, hok, herr⟩ := hbearer rest hrest
    refine ⟨hval, ?_, herr⟩
    intro claims hv
    exact ⟨_, hok claims hv, getLocal_setLocal c _ _, hstored claims, rfl,
      fun key hkey => getLocal_setLocal_of_ne c _ key _ hkey⟩
  · intro c' hc'
    rcases hnext c' hc' with h | ⟨rest, claims, hrest, hv, hc⟩
    · exact Or.inl h
    · exact Or.inr ⟨rest, claims, hrest, hv, by rw [hc]; exact hstored claims⟩
  · intro hfresh c' claims hc' hget
    rcases hnext c' hc' with ⟨_, h⟩ | ⟨rest, cl, hrest, hv, hc⟩
    · rw [h] at hget
      simp [GetClaims, CtxUserKey, hfresh] at hget
    · rw [hc, hstored cl] at hget
      cases hget
      exact ⟨rest, hrest, hv⟩

/-! ## Lemmas on the base64url encoding -/

/-- Decoding the character of a 6-bit value gives the value back. -/
theorem sextet_round_trip : ∀ v, v < 64 → base64.decodeSextet (base64.encodeSextet v) = some v := by
  decide

/-- Every character the encoding produces is in the alphabet. -/
theorem sextet_in_alphabet (v : Nat) : base64.encodeSextet v ∈ base64.alphabet := by
  unfold base64.encodeSextet
  by_cases h : v < base64.alphabet.length
  · rw [List.getD_eq_getElem _ _ h]
    exact List.getElem_mem h
  · rw [List.getD_eq_default _ _ (Nat.le_of_not_lt h)]
    decide

/-- Decoding an encoded byte string gives the bytes back. -/
theorem decode_encode : ∀ bs : List Nat, (∀ b ∈ bs, b < 256) →
    base64.decode (base64.encode bs) = some bs
  | [], _ => rfl
  | [b0], h => by
    have h0 : b0 < 256 := h b0 (by simp)
    simp only [base64.encode, base64.decode]
    rw [sextet_round_trip (b0 / 4) (by omega), sextet_round_trip (b0 % 4 * 16) (by omega)]
    simp only [Option.some.injEq, List.cons.injEq, and_true]
    omega
  | [b0, b1], h => by
    have h0 : b0 < 256 := h b0 (by simp)
    have h1 : b1 < 256 := h b1 (by simp)
    simp only [base64.encode, base64.decode]
    rw [sextet_round_trip (b0 / 4) (by omega),
      sextet_round_trip (b0 % 4 * 16 + b1 / 16) (by omega),
      sextet_round_trip (b1 % 16 * 4) (by omega)]
    simp only [Option.some.injEq, List.cons.injEq, and_true]
    omega
  | b0 :: b1 :: b2 :: rest, h => by
    have h0 : b0 < 256 := h b0 (by simp)
    have h1 : b1 < 256 := h b1 (by simp)
    have h2 : b2 < 256 := h b2 (by simp)
    have ih := decode_encode rest (fun b hb => h b (by simp [hb]))
    simp only [base64.encode, base64.decode]
    rw [sextet_round_trip (b0 / 4) (by omega),
      sextet_round_trip (b0 % 4 * 16 + b1 / 16) (by omega),
      sextet_round_trip (b1 % 16 * 4 + b2 / 64) (by omega),
      sextet_round_trip (b2 % 64) (by omega), ih]
    simp only [Option.some.injEq, List.cons.injEq, and_true]
    omega

/-- The encoding of `n` bytes has `(4 n + 2) / 3` characters. -/
theorem encode_length : ∀ bs : List Nat, (base64.encode bs).length = (4 * bs.length + 2) / 3
  | [] => rfl
  | [_] => by simp [base64.encode]
  | [_, _] => by simp [base64.encode]
  | _ :: _ :: _ :: rest => by
    simp only [base64.encode, List.length_cons, encode_length rest]
    omega

/-- The encoding uses the characters of the alphabet only. -/
theorem encode_alphabet : ∀ bs : List Nat, ∀ c ∈ base64.encode bs, c ∈ base64.alphabet
  | [], c, hc => by simp [base64.encode] at hc
  | [b0], c, hc => by
    simp only [base64.encode, List.mem_cons, List.mem_singleton, List.not_mem_nil, or_false] at hc
    rcases hc with rfl | rfl <;> exact sextet_in_alphabet _
  | [b0, b1], c, hc => by
    simp only [base64.encode, List.mem_cons, List.mem_singleton, List.not_mem_nil, or_false] at hc
    rcases hc with rfl | rfl | rfl <;> exact sextet_in_alphabet _
  | b0 :: b1 :: b2 :: rest, c, hc => by
    simp only [base64.encode, List.mem_cons] at hc
    rcases hc with rfl | rfl | rfl | rfl | hc
    · exact sextet_in_alphabet _
    · exact sextet_in_alphabet _
    · exact sextet_in_alphabet _
    · exact sextet_in_alphabet _
    · exact encode_alphabet rest c hc

/-- The encoding is injective on byte strings. -/
theorem encode_injective (xs ys : List Nat) (hx : ∀ b ∈ xs, b < 256) (hy : ∀ b ∈ ys, b < 256)
    (h : base64.EncodeToString xs = base64.EncodeToString ys) : xs = ys := by
  have h' : base64.encode xs = base64.encode ys := congrArg String.data h
  have := decode_encode xs hx
  rw [h', decode_encode ys hy] at this
  exact (Option.some.inj this).symm

/-- The characters of the alphabet are ASCII letters, digits, `-` and `_`. -/
theorem alphabet_chars : ∀ c ∈ base64.alphabet, c.isAlphanum = true ∨ c = '-' ∨ c = '_' := by
  decide

/-- Lemma: a character of the base64url alphabet is one byte in a Go string, its
code. -/
theorem alphabet_bytes : ∀ c ∈ base64.alphabet,
    (String.utf8EncodeChar c).map UInt8.toNat = [c.toNat] := by
  decide

/-- The bytes of a string of characters of the base64url alphabet are the
codes of its characters, one byte each. -/
theorem stringBytes_ascii : ∀ cs : List Char, (∀ c ∈ cs, c ∈ base64.alphabet) →
    stringBytes (String.mk cs) = cs.map Char.toNat
  | [], _ => rfl
  | c :: cs, h => by
    have ih := stringBytes_ascii cs (fun x hx => h x (List.mem_cons_of_mem _ hx))
    have hc := alphabet_bytes c (h c (List.mem_cons_self _ _))
    show (String.utf8EncodeChar c).map UInt8.toNat ++ stringBytes (String.mk cs) = _
    rw [hc, ih]
    rfl

/-- A SHA-256 digest has 32 bytes. -/
theorem sha256_length (data : List Nat) : (sha256.Sum256 data).length = 32 := by
  simp [sha256.Sum256, sha256.State.bytes, sha256.wordBytes]

/-- The bytes of a SHA-256 digest are below 256. -/
theorem sha256_bytes (data : List Nat) : ∀ x ∈ sha256.Sum256 data, x < 256 := by
  intro x hx
  simp only [sha256.Sum256, sha256.State.bytes, sha256.wordBytes, List.mem_append,
    List.mem_cons, List.mem_singleton, List.not_mem_nil, or_false] at hx
  rcases hx with ((((((h | h) | h) | h) | h) | h) | h) | h <;>
    rcases h with h | h | h | h <;> (subst h; exact Nat.mod_lt _ (by norm_num))

set_option maxRecDepth 100000 in
/-- The digests `sha256.Sum256` computes for the empty string and for `abc`
are those of the standard (FIPS 180-4, test vectors), and `HashRefreshToken`
of `abc` is the unpadded base64url text of that digest, in both services. -/
theorem sha256_test_vectors :
    sha256.Sum256 (stringBytes "")
      = [0xe3, 0xb0, 0xc4, 0x42, 0x98, 0xfc, 0x1c, 0x14,
         0x9a, 0xfb, 0xf4, 0xc8, 0x99, 0x6f, 0xb9, 0x24,
         0x27, 0xae, 0x41, 0xe4, 0x64, 0x9b, 0x93, 0x4c,
         0xa4, 0x95, 0x99, 0x1b, 0x78, 0x52, 0xb8, 0x55]
    ∧ sha256.Sum256 (stringBytes "abc")
      = [0xba, 0x78, 0x16, 0xbf, 0x8f, 0x01, 0xcf, 0xea,
         0x41, 0x41, 0x40, 0xde, 0x5d, 0xae, 0x22, 0x23,
         0xb0, 0x03, 0x61, 0xa3, 0x96, 0x17, 0x7a, 0x9c,
         0xb4, 0x10, 0xff, 0x61, 0xf2, 0x00, 0x15, 0xad]
    ∧ stringBytes "abc" = [97, 98, 99]
    ∧ sampleHMAC.HashRefreshToken sha256.Sum256 "abc"
      = ("ungWv48Bz-pBQUDeXa4iI7ADYaOWF3qctBD_YfIAFa0", none)
    ∧ sampleRSA.HashRefreshToken sha256.Sum256 "abc"
      = ("ungWv48Bz-pBQUDeXa4iI7ADYaOWF3qctBD_YfIAFa0", none) := by
  decide

/-- C19 (code defect).  `hmacService.NewOpaqueToken` panics for a negative
length, in `make([]byte, nBytes)`, whatever the random source does, while
`rsaService.NewOpaqueToken` replaces a length of zero or less by 32 and
returns.  For a positive length the two implementations agree, and a
successful read of `n` bytes yields their unpadded base64url encoding. -/
theorem C19_hmac_NewOpaqueToken_panics_on_negative_length :
    (∀ (hs : hmacService) (rand : RandRead),
        hs.NewOpaqueToken rand (-1) = .panics "runtime error: makeslice: len out of range")
    ∧ (∀ (rs : rsaService) (rand : RandRead),
        rs.NewOpaqueToken rand (-1) = rs.NewOpaqueToken rand 32
        ∧ ∃ r, rs.NewOpaqueToken rand (-1) = .returns r)
    ∧ (∀ (hs : hmacService) (rs : rsaService) (rand : RandRead) (n : Int), 0 < n →
        hs.NewOpaqueToken rand n = rs.NewOpaqueToken rand n)
    ∧ (∀ (hs : hmacService) (rand : RandRead) (n : Int) (b : List Nat), 0 < n →
        rand n.toNat = .ok b →
        hs.NewOpaqueToken rand n = .returns (base64.EncodeToString b, none)) := by
  refine ⟨?_, ?_, ?_, ?_⟩
  · intro hs rand
    rfl
  · intro rs rand
    refine ⟨rfl, ?_⟩
    have h32 : rs.NewOpaqueToken rand (-1)
        = match rand 32 with
          | .error err => .returns ("", some err)
          | .ok b => .returns (base64.EncodeToString b, none) := rfl
    rw [h32]
    cases rand 32 with
    | error err => exact ⟨_, rfl⟩
    | ok b => exact ⟨_, rfl⟩
  · intro hs rs rand n hn
    have h1 : ¬ n < 0 := by omega
    have h2 : ¬ n ≤ 0 := by omega
    simp only [hmacService.NewOpaqueToken, rsaService.NewOpaqueToken, h1, h2, if_false]
  · intro hs rand n b hn hb
    have h1 : ¬ n < 0 := by omega
    simp only [hmacService.NewOpaqueToken, h1, if_false, hb]

/-! ## Lemmas on `Login` -/

/-- Every call `Login` makes is the lookup of the user, or follows a lookup
that returned a user without error: the verification of the password, or,
after that succeeded, the generation of a token for that user. -/
theorem login_calls (a : authUsecase) (email password : String) (c : Call)
    (hc : c ∈ (a.Login email password).calls) :
    c = .GetByEmail email
    ∨ ∃ u, a.userRepo.GetByEmail email = (some u, [])
        ∧ (c = .Verify u.Password password
          ∨ (a.hasher.Verify u.Password password = true
              ∧ (c = .GenerateAccessToken u ∨ c = .GenerateRefreshToken u))) := by
  unfold authUsecase.Login at hc
  rcases hg : a.userRepo.GetByEmail email with ⟨u, err⟩
  rw [hg] at hc
  by_cases he : err = []
  · subst he
    cases u with
    | none => simp at hc; exact Or.inl hc
    | some u =>
      cases hv : a.hasher.Verify u.Password password with
      | false =>
        simp [hv] at hc
        rcases hc with hc | hc
        · exact Or.inl hc
        · exact Or.inr ⟨u, rfl, Or.inl hc⟩
      | true =>
        rcases ha : a.jwtSvc.GenerateAccessToken u with ⟨access, err1⟩
        rcases hr : a.jwtSvc.GenerateRefreshToken u with ⟨refresh, hashed, expiresAt, err2⟩
        simp only [hv, ha, hr] at hc
        by_cases h1 : err1 = []
        · by_cases h2 : err2 = []
          · simp [h1, h2] at hc
            rcases hc with hc | hc | hc | hc
            · exact Or.inl hc
            · exact Or.inr ⟨u, rfl, Or.inl hc⟩
            · exact Or.inr ⟨u, rfl, Or.inr ⟨hv, Or.inl hc⟩⟩
            · exact Or.inr ⟨u, rfl, Or.inr ⟨hv, Or.inr hc⟩⟩
          · simp [h1, h2] at hc
            rcases hc with hc | hc | hc | hc
            · exact Or.inl hc
            · exact Or.inr ⟨u, rfl, Or.inl hc⟩
            · exact Or.inr ⟨u, rfl, Or.inr ⟨hv, Or.inl hc⟩⟩
            · exact Or.inr ⟨u, rfl, Or.inr ⟨hv, Or.inr hc⟩⟩
        · simp [h1] at hc
          rcases hc with hc | hc | hc
          · exact Or.inl hc
          · exact Or.inr ⟨u, rfl, Or.inl hc⟩
          · exact Or.inr ⟨u, rfl, Or.inr ⟨hv, Or.inl hc⟩⟩
  · simp [he] at hc
    exact Or.inl hc

/-- When the lookup does not return a user without error, or the password
does not verify, `Login` returns an error and two empty strings. -/
theorem login_refused (a : authUsecase) (email password : String)
    (h : ¬ ∃ u, a.userRepo.GetByEmail email = (some u, [])
        ∧ a.hasher.Verify u.Password password = true) :
    (a.Login email password).err ≠ []
    ∧ (a.Login email password).accessToken = ""
    ∧ (a.Login email password).refreshToken = "" := by
  unfold authUsecase.Login
  rcases hg : a.userRepo.GetByEmail email with ⟨u, err⟩
  by_cases he : err = []
  · subst he
    cases u with
    | none => simp
    | some u =>
      cases hv : a.hasher.Verify u.Password password with
      | false => simp [hv]
      | true => exact absurd ⟨u, hg, hv⟩ h
  · simp [he]

/-- C16.  Tokens are issued only after the password check succeeds.  If
`Login` calls `GenerateAccessToken` or `GenerateRefreshToken`, for a user `u`,
then the lookup by the email returned `u` without error and the hasher
verified the password against `u.Password`.  In every other case (lookup
error, no such user, wrong password) `Login` returns an error with both token
strings empty and calls neither generator. -/
theorem C16_tokens_only_after_password_check (a : authUsecase) (email password : String) :
    (∀ u, (Call.GenerateAccessToken u ∈ (a.Login email password).calls
          ∨ Call.GenerateRefreshToken u ∈ (a.Login email password).calls) →
        a.userRepo.GetByEmail email = (some u, [])
          ∧ a.hasher.Verify u.Password password = true)
    ∧ ((¬ ∃ u, a.userRepo.GetByEmail email = (some u, [])
          ∧ a.hasher.Verify u.Password password = true) →
        (a.Login email password).err ≠ []
          ∧ (a.Login email password).accessToken = ""
          ∧ (a.Login email password).refreshToken = ""
          ∧ ∀ v, Call.GenerateAccessToken v ∉ (a.Login email password).calls
              ∧ Call.GenerateRefreshToken v ∉ (a.Login email password).calls) := by
  have key : ∀ u, (Call.GenerateAccessToken u ∈ (a.Login email password).calls
        ∨ Call.GenerateRefreshToken u ∈ (a.Login email password).calls) →
      a.userRepo.GetByEmail email = (some u, [])
        ∧ a.hasher.Verify u.Password password = true := by
    intro u hu
    rcases hu with hu | hu
    · rcases login_calls a email password _ hu with h | ⟨u', hg, h⟩
      · cases h
      · rcases h with h | ⟨hv, h | h⟩
        · cases h
        · cases h
          exact ⟨hg, hv⟩
        · cases h
    · rcases login_calls a email password _ hu with h | ⟨u', hg, h⟩
      · cases h
      · rcases h with h | ⟨hv, h | h⟩
        · cases h
        · cases h
        · cases h
          exact ⟨hg, hv⟩
  refine ⟨key, ?_⟩
  intro h
  obtain ⟨h1, h2, h3⟩ := login_refused a email password h
  refine ⟨h1, h2, h3, ?_⟩
  intro v
  exact ⟨fun hv => h ⟨v, key v (Or.inl hv)⟩, fun hv => h ⟨v, key v (Or.inr hv)⟩⟩

/-- The calls of `Login` leave a ledger as it is. -/
theorem ledger_afterCalls_of_no_save (l : Ledger) (now : Int) (calls : List Call)
    (h : ∀ uid hsh exp, Call.Save uid hsh exp ∉ calls) : l.afterCalls now calls = l := by
  induction calls with
  | nil => rfl
  | cons c rest ih =>
    have hrest : ∀ uid hsh exp, Call.Save uid hsh exp ∉ rest :=
      fun uid hsh exp hm => h uid hsh exp (List.mem_cons_of_mem _ hm)
    cases c with
    | Save uid hsh exp => exact absurd (List.mem_cons_self _ _) (h uid hsh exp)
    | GetByEmail e => simpa [Ledger.afterCalls] using ih hrest
    | Verify x y => simpa [Ledger.afterCalls] using ih hrest
    | GenerateAccessToken u => simpa [Ledger.afterCalls] using ih hrest
    | GenerateRefreshToken u => simpa [Ledger.afterCalls] using ih hrest

/-- C14 (code defect).  `Login` never creates the refresh-token record: it
keeps the plaintext of `GenerateRefreshToken` and drops the hash and the
expiry, and none of its calls is a `Save`, so every ledger is after a login
what it was before.  The login of `a@b.com` with the right password succeeds
and returns a refresh token, and the ledger, empty before, holds no record of
that token's hash afterwards. -/
theorem C14_login_saves_no_refresh_record :
    (∀ (a : authUsecase) (email password : String) (uid : Nat) (hsh : String) (exp : Int),
        Call.Save uid hsh exp ∉ (a.Login email password).calls)
    ∧ (∀ (a : authUsecase) (email password : String) (l : Ledger) (now : Int),
        l.afterCalls now (a.Login email password).calls = l)
    ∧ (sampleUsecase.Login "a@b.com" "hunter2").err = []
    ∧ (sampleUsecase.Login "a@b.com" "hunter2").accessToken = "header.payload.signature"
    ∧ (sampleUsecase.Login "a@b.com" "hunter2").refreshToken
        = base64.EncodeToString (List.range 32)
    ∧ (Ledger.afterCalls [] sampleNow (sampleUsecase.Login "a@b.com" "hunter2").calls).findByHash
        (sampleHMAC.HashRefreshToken zeroDigest
          (sampleUsecase.Login "a@b.com" "hunter2").refreshToken).1 = none := by
  have hno : ∀ (a : authUsecase) (email password : String) (uid : Nat) (hsh : String) (exp : Int),
      Call.Save uid hsh exp ∉ (a.Login email password).calls := by
    intro a email password uid hsh exp hm
    rcases login_calls a email password _ hm with h | ⟨u, _, h | ⟨_, h | h⟩⟩ <;> cases h
  refine ⟨hno, ?_, by decide, by decide, by decide, ?_⟩
  · intro a email password l now
    exact ledger_afterCalls_of_no_save l now _ (hno a email password)
  · rw [ledger_afterCalls_of_no_save [] sampleNow _ (hno sampleUsecase "a@b.com" "hunter2")]
    rfl

/-! ## Lemmas on the ledger -/

/-- Looking a hash up after a revocation: the record found before, marked
revoked if it is of the revoked hash. -/
theorem findByHash_revoke (l : Ledger) (h h' : String) :
    (l.revoke h).findByHash h'
      = (l.findByHash h').map
          (fun r => if r.token_hash = h then { r with revoked := true } else r) := by
  have hp : ((fun r : RefreshTokenRecord => decide (r.token_hash = h'))
      ∘ fun r => if r.token_hash = h then { r with revoked := true } else r)
      = fun r => decide (r.token_hash = h') := by
    funext r
    by_cases hr : r.token_hash = h
    · simp [hr]
    · simp [hr]
  unfold Ledger.revoke Ledger.findByHash
  rw [List.find?_map, hp]

/-- Looking a hash up after a save: the record found before, or else the new
record if it is of that hash. -/
theorem findByHash_save (l : Ledger) (now : Int) (s : Nat) (h : String) (e : Int) (h' : String) :
    (l.save now s h e).findByHash h'
      = match l.findByHash h' with
        | some r => some r
        | none =>
          if h = h' then
            some { token_hash := h, subject_id := s, expires_at := e, revoked := false,
                   created_at := now }
          else none := by
  simp only [Ledger.save, Ledger.findByHash, List.find?_append]
  cases List.find? (fun r => decide (r.token_hash = h')) l with
  | some r => rfl
  | none =>
    by_cases hh : h = h'
    · simp [hh]
    · simp [hh]

/-- C15.  Refresh rotation is single-use, on the ledger of the specification.
Let `T` be valid in the ledger at `now` (its hash has a record that is not
revoked and not expired), let `T'` be freshly generated (no record of its
hash exists) and the refresh TTL positive.  Rotating `T` to `T'` succeeds and
yields `T'`; afterwards the hash of `T'` is valid and the hash of `T` is not.
Rotating `T` again, at any time and to any new token, fails with
`RotationConflict`, which is not `NotFound`, and leaves the ledger as it was,
so that `T'` is still valid. -/
theorem C15_rotation_is_single_use
    (hash : String → String) (refreshTTL : Int) (l : Ledger) (now later : Int)
    (T T' T'' : String)
    (hvalid : l.valid now (hash T) = true)
    (hfresh : l.findByHash (hash T') = none)
    (httl : 0 < refreshTTL) :
    (rotateRefreshToken hash refreshTTL l now T T').1 = .ok T'
    ∧ (rotateRefreshToken hash refreshTTL l now T T').2.valid now (hash T') = true
    ∧ (rotateRefreshToken hash refreshTTL l now T T').2.valid now (hash T) = false
    ∧ rotateRefreshToken hash refreshTTL (rotateRefreshToken hash refreshTTL l now T T').2
        later T T''
      = (.error .RotationConflict, (rotateRefreshToken hash refreshTTL l now T T').2)
    ∧ LedgerError.RotationConflict ≠ LedgerError.NotFound
    ∧ (rotateRefreshToken hash refreshTTL (rotateRefreshToken hash refreshTTL l now T T').2
        later T T'').2.valid now (hash T') = true := by
  unfold Ledger.valid at hvalid
  cases hf : l.findByHash (hash T) with
  | none => simp [hf] at hvalid
  | some r =>
    simp only [hf, Bool.and_eq_true, Bool.not_eq_true', decide_eq_true_eq] at hvalid
    obtain ⟨hrev, hexp⟩ := hvalid
    have hrh : r.token_hash = hash T := by
      have := List.find?_some hf
      simpa using this
    have hne : hash T' ≠ hash T := by
      intro h
      rw [h, hf] at hfresh
      cases hfresh
    have hrot : rotateRefreshToken hash refreshTTL l now T T'
        = (.ok T', (l.revoke (hash T)).save now r.subject_id (hash T') (now + refreshTTL)) := by
      have h1 : ¬ r.expires_at ≤ now := by omega
      simp only [rotateRefreshToken, Ledger.rotate, hf, hrev, h1, if_false, Bool.false_eq_true]
    have hnew : ((l.revoke (hash T)).save now r.subject_id (hash T') (now + refreshTTL)).valid now
        (hash T') = true := by
      simp only [Ledger.valid, findByHash_save, findByHash_revoke, hfresh, Option.map_none',
        if_true, Bool.not_false, Bool.true_and, decide_eq_true_eq]
      omega
    have hold : ((l.revoke (hash T)).save now r.subject_id (hash T') (now + refreshTTL)).findByHash
        (hash T) = some { r with revoked := true } := by
      simp only [findByHash_save, findByHash_revoke, hf, Option.map_some', hrh, if_true]
    have hagain : rotateRefreshToken hash refreshTTL
        ((l.revoke (hash T)).save now r.subject_id (hash T') (now + refreshTTL)) later T T''
        = (.error .RotationConflict,
            (l.revoke (hash T)).save now r.subject_id (hash T') (now + refreshTTL)) := by
      simp only [rotateRefreshToken, Ledger.rotate, hold, if_true]
    rw [hrot]
    refine ⟨rfl, hnew, ?_, hagain, by decide, ?_⟩
    · simp only [Ledger.valid, hold, Bool.not_true, Bool.false_and]
    · rw [hagain]
      exact hnew

/-- C15 (witness): a ledger with one record, of the hash of `old-token`,
rotated to `new-token`. -/
theorem C15_rotation_is_single_use_witness :
    (rotateRefreshToken (fun t => "h(" ++ t ++ ")") (7 * 24 * 60 * 60 * Second)
        (Ledger.save [] 0 42 "h(old-token)" (sampleNow + Second)) sampleNow
        "old-token" "new-token").1 = .ok "new-token"
    ∧ (rotateRefreshToken (fun t => "h(" ++ t ++ ")") (7 * 24 * 60 * 60 * Second)
        (Ledger.save [] 0 42 "h(old-token)" (sampleNow + Second)) sampleNow
        "old-token" "new-token").2.valid sampleNow ((fun t => "h(" ++ t ++ ")") "new-token") = true
    ∧ (rotateRefreshToken (fun t => "h(" ++ t ++ ")") (7 * 24 * 60 * 60 * Second)
        (Ledger.save [] 0 42 "h(old-token)" (sampleNow + Second)) sampleNow
        "old-token" "new-token").2.valid sampleNow ((fun t => "h(" ++ t ++ ")") "old-token") = false
    ∧ rotateRefreshToken (fun t => "h(" ++ t ++ ")") (7 * 24 * 60 * 60 * Second)
        (rotateRefreshToken (fun t => "h(" ++ t ++ ")") (7 * 24 * 60 * 60 * Second)
          (Ledger.save [] 0 42 "h(old-token)" (sampleNow + Second)) sampleNow
          "old-token" "new-token").2
        (sampleNow + Second) "old-token" "other-token"
      = (.error .RotationConflict,
          (rotateRefreshToken (fun t => "h(" ++ t ++ ")") (7 * 24 * 60 * 60 * Second)
            (Ledger.save [] 0 42 "h(old-token)" (sampleNow + Second)) sampleNow
            "old-token" "new-token").2)
    ∧ LedgerError.RotationConflict ≠ LedgerError.NotFound
    ∧ (rotateRefreshToken (fun t => "h(" ++ t ++ ")") (7 * 24 * 60 * 60 * Second)
        (rotateRefreshToken (fun t => "h(" ++ t ++ ")") (7 * 24 * 60 * 60 * Second)
          (Ledger.save [] 0 42 "h(old-token)" (sampleNow + Second)) sampleNow
          "old-token" "new-token").2
        (sampleNow + Second) "old-token" "other-token").2.valid sampleNow
        ((fun t => "h(" ++ t ++ ")") "new-token") = true :=
  C15_rotation_is_single_use (fun t => "h(" ++ t ++ ")") (7 * 24 * 60 * 60 * Second)
    (Ledger.save [] 0 42 "h(old-token)" (sampleNow + Second)) sampleNow (sampleNow + Second)
    "old-token" "new-token" "other-token" (by decide) (by decide) (by decide)

end DigitalBank
